import Mathlib

/-!
# Expense calculator: the ledger and the 14-day mission cycle of `src/script.js`

A shallow embedding of the accounting core of the `FinancialTracker` class.

Conventions of the embedding.

* Instants (`Date.now()`, `new Date()`, a parsed ISO string) are integers, the number of
  milliseconds since the epoch.  One call of a method reads the clock once: the parameter `now`.
* Money amounts are exact rationals, that is, finite numbers with exact arithmetic.  The
  three form handlers and `deleteTransaction` are embedded a second time, on numbers that may
  be `NaN` or infinite (`JsNum`), for form fields that parse to `NaN` or to `Infinity`.
* `importData` works on a parsed JSON document (`JsVal`) and on the tracker fields as raw
  values (`RawTracker`), since it assigns whatever the document holds.  The calls
  `autoSave()` and `updateDisplay()` that end its accepting branch are the parameter `finish`.
* `Math.random()` is the parameter `rnd`.
* The four tracker fields `balance`, `dailyTarget`, `transactions`, `currentMission` form the
  state `Tracker`; a method is a function from the state (and its arguments) to its return
  value and the state it leaves.  The `save...` calls copy these fields to `localStorage` and
  the `update...Display`/`showToast` calls draw them; neither is read back by the methods
  embedded here, except the stored mission record that `loadMissionData` receives as `stored`.
* A method that can `throw` returns `Except String Unit` next to the state it leaves.
-/

namespace FinancialTracker

/-- The divisor `1000 * 60 * 60 * 24`: the milliseconds of one day. -/
def msPerDay : Int := 1000 * 60 * 60 * 24

/-- A transaction identifier as a JavaScript value: `addTransaction` stores a number, the
rendered delete buttons pass a string.  Derived equality is `===`. -/
inductive TxId where
  | num (n : ℚ)
  | str (s : String)
  deriving DecidableEq

/-- The transaction record built by `addTransaction`.  `timestamp` is the instant that the
ISO string denotes.  The record's `date` field (`toDateString()` of the same instant) is used
by the history filter only and is left out. -/
structure Transaction where
  id : TxId
  type : String
  amount : ℚ
  description : String
  timestamp : Int
  day : Int
  deriving DecidableEq

/-- The mission record of `createNewMission`.  `startDate` is the instant `new Date(startDate)`
that the stored date string denotes; the arrays are lists. -/
structure Mission where
  startDate : Int
  currentDay : Int
  dailyTargets : List ℚ
  dailyExpenses : List ℚ
  totalTarget : ℚ
  deriving DecidableEq

/-- The mutable fields of a `FinancialTracker`. -/
structure Tracker where
  balance : ℚ
  dailyTarget : ℚ
  transactions : List Transaction
  currentMission : Mission
  deriving DecidableEq

/-- The expression `Math.floor((now - startDate) / (1000 * 60 * 60 * 24))`. -/
def daysDiff (now startDate : Int) : Int :=
  Int.floor (((now - startDate : Int) : ℚ) / (msPerDay : ℚ))

/-- The instant denoted by `new Date().toISOString().split('T')[0]`: midnight (UTC) of the
calendar day that contains `now`. -/
def todayDate (now : Int) : Int :=
  Int.floor ((now : ℚ) / (msPerDay : ℚ)) * msPerDay

/-- Source `createNewMission`. -/
def createNewMission (now : Int) : Mission :=
  { startDate := todayDate now
    currentDay := 1
    dailyTargets := List.replicate 14 0
    dailyExpenses := List.replicate 14 0
    totalTarget := 0 }

/-- Source `loadMissionData`; `stored` is the parsed `current_mission` entry of
`localStorage`, `none` when the entry is absent. -/
def loadMissionData (stored : Option Mission) (now : Int) : Mission :=
  match stored with
  | some data =>
    if daysDiff now data.startDate < 14 then data else createNewMission now
  | none => createNewMission now

/-- Source `getCurrentDay`. -/
def getCurrentDay (s : Tracker) (now : Int) : Int :=
  min (daysDiff now s.currentMission.startDate + 1) 14

/-- Source `checkForNewDay`. -/
def checkForNewDay (s : Tracker) (now : Int) : Tracker :=
  let currentDay := getCurrentDay s now
  if currentDay ≠ s.currentMission.currentDay then
    let s1 := { s with currentMission := { s.currentMission with currentDay := currentDay } }
    if currentDay > 14 then
      { s1 with currentMission := createNewMission now }
    else s1
  else s

/-- Source `addTransaction`.  The new record goes to the front of the list (`unshift`); a
withdrawal is added to the bucket `getCurrentDay() - 1` when that index is in `0..13`. -/
def addTransaction (s : Tracker) (type : String) (amount : ℚ) (description : String)
    (now : Int) (rnd : ℚ) : Transaction × Tracker :=
  let transaction : Transaction :=
    { id := TxId.num ((now : ℚ) + rnd)
      type := type
      amount := amount
      description := description
      timestamp := now
      day := getCurrentDay s now }
  let s1 := { s with transactions := transaction :: s.transactions }
  if type = "deposit" then
    (transaction, { s1 with balance := s1.balance + transaction.amount })
  else if type = "withdraw" then
    let s2 := { s1 with balance := s1.balance - transaction.amount }
    let today := getCurrentDay s2 now - 1
    if today ≥ 0 ∧ today < 14 then
      let e := s2.currentMission.dailyExpenses
      (transaction,
        { s2 with currentMission :=
            { s2.currentMission with
                dailyExpenses := e.set today.toNat (e.getD today.toNat 0 + transaction.amount) } })
    else (transaction, s2)
  else (transaction, s1)

/-- The array method `findIndex`; `none` stands for the result `-1`. -/
def findIndex {α : Type} (p : α → Bool) : List α → Option Nat
  | [] => none
  | x :: xs => if p x then some 0 else (findIndex p xs).map (· + 1)

/-- The reversing branch of `deleteTransaction` (the body of `if (index !== -1)` up to the
`splice`): the balance is restored, and for a withdrawal the bucket recomputed from the
record's `timestamp` and the mission's `startDate` is lowered and cut off at zero, when that
index is in `0..13`. -/
def reverseTransaction (s : Tracker) (transaction : Transaction) : Tracker :=
  if transaction.type = "deposit" then
    { s with balance := s.balance - transaction.amount }
  else if transaction.type = "withdraw" then
    let s2 := { s with balance := s.balance + transaction.amount }
    let dayIndex := daysDiff transaction.timestamp s2.currentMission.startDate
    if dayIndex ≥ 0 ∧ dayIndex < 14 then
      let e := s2.currentMission.dailyExpenses
      { s2 with currentMission :=
          { s2.currentMission with
              dailyExpenses :=
                e.set dayIndex.toNat (max 0 (e.getD dayIndex.toNat 0 - transaction.amount)) } }
    else s2
  else s

/-- Source `deleteTransaction`: look the identifier up with `===`, reverse the record found,
`splice` it out and return `true`; return `false` when `findIndex` gives `-1`.  The read
`this.transactions[index]` at a found index always succeeds (`deleteTransaction_present`), so
the inner `none` branch is never taken. -/
def deleteTransaction (s : Tracker) (transactionId : TxId) : Bool × Tracker :=
  match findIndex (fun t => decide (t.id = transactionId)) s.transactions with
  | some index =>
    match s.transactions.get? index with
    | some transaction =>
      let s1 := reverseTransaction s transaction
      (true, { s1 with transactions := s1.transactions.eraseIdx index })
    | none => (false, s)
  | none => (false, s)

/-- Source `handleWithdraw`; `amount` is the parsed form field, `description` the form's
description field (`none` when absent). -/
def handleWithdraw (s : Tracker) (amount : ℚ) (description : Option String)
    (now : Int) (rnd : ℚ) : Except String Unit × Tracker :=
  let description :=
    match description with
    | some d => if d = "" then "Expense" else d
    | none => "Expense"
  if amount ≤ 0 then
    (Except.error "Amount must be greater than 0", s)
  else if amount > s.balance then
    (Except.error "Insufficient balance", s)
  else
    (Except.ok (), (addTransaction s "withdraw" amount description now rnd).2)


/-- One call on the tracker: `addTransaction(type, amount, description)` made at the instant
`now` with `Math.random()` giving `rnd`, or `deleteTransaction(transactionId)`. -/
inductive Call where
  | add (type : String) (amount : ℚ) (description : String) (now : Int) (rnd : ℚ)
  | delete (transactionId : TxId)

/-- The state after one call. -/
def Call.run (s : Tracker) : Call → Tracker
  | Call.add type amount description now rnd =>
    (addTransaction s type amount description now rnd).2
  | Call.delete transactionId => (deleteTransaction s transactionId).2

/-- The state after a sequence of calls, first call first. -/
def runCalls (s : Tracker) (calls : List Call) : Tracker :=
  calls.foldl Call.run s

/-- Sum of the amounts of the records of the given type. -/
def sumOfType (type : String) (l : List Transaction) : ℚ :=
  ((l.filter (fun t => decide (t.type = type))).map (fun t => t.amount)).sum

/-- Sum of the amounts of the withdraw records whose stored `day` field is `d + 1`. -/
def withdrawnOnDay (l : List Transaction) (d : Nat) : ℚ :=
  ((l.filter (fun t => decide (t.type = "withdraw" ∧ t.day = (d : Int) + 1))).map
    (fun t => t.amount)).sum

/-- A tracker with the given balance, no daily target, an empty ledger and the mission that
`createNewMission` builds at the instant `now`. -/
def freshTracker (balance : ℚ) (now : Int) : Tracker :=
  ⟨balance, 0, [], createNewMission now⟩

/-- A ledger of two records on the first mission day: a deposit of 100 and, in front of it, a
withdrawal of 30. -/
def sampleTracker : Tracker :=
  { balance := 70
    dailyTarget := 40
    transactions :=
      [ { id := TxId.num 2000, type := "withdraw", amount := 30, description := "Expense",
          timestamp := 2000, day := 1 },
        { id := TxId.num 1000, type := "deposit", amount := 100, description := "Deposit",
          timestamp := 1000, day := 1 } ]
    currentMission :=
      { startDate := 0
        currentDay := 1
        dailyTargets := List.replicate 14 40
        dailyExpenses := [30, 0, 0, 0, 0, 0, 0, 0, 0, 0, 0, 0, 0, 0]
        totalTarget := 0 } }

/-- A fresh mission started at instant 0 with balance 100, then `withdraw(30)` made 14 whole
days later (instant 1209600000) in the same running tracker. -/
def lateWithdrawal : Tracker :=
  (handleWithdraw (freshTracker 100 0) 30 none 1209600000 (1 / 2)).2

/-- The state `lateWithdrawal` after deleting its one record. -/
def lateWithdrawalDeleted : Tracker :=
  (deleteTransaction lateWithdrawal (TxId.num (1209600000 + 1 / 2))).2

/-- From the empty state (balance 0, empty ledger, mission started at instant 0): a deposit
of 100 in the first second, then `withdraw(30)` made 14 whole days after the start (instant
1209600000) in the same running tracker. -/
def roundTripBefore : Tracker :=
  (handleWithdraw (addTransaction (freshTracker 0 0) "deposit" 100 "Deposit" 1000 (1 / 8)).2
    30 none 1209600000 (1 / 2)).2

/-- The state `roundTripBefore` after deleting its withdrawal. -/
def roundTripDeleted : Tracker :=
  (deleteTransaction roundTripBefore (TxId.num (1209600000 + 1 / 2))).2

/-- The state `roundTripDeleted` after the same withdrawal is added again one second later,
still on mission day 14. -/
def roundTripReadded : Tracker :=
  (addTransaction roundTripDeleted "withdraw" 30 "Expense" 1209601000 (1 / 4)).2

/-- A fresh mission started at instant 0 with balance 100, then `withdraw(30)` on its second
day (instant 86400005). -/
def firstCycle : Tracker :=
  (handleWithdraw (freshTracker 100 0) 30 none 86400005 (1 / 2)).2

/-- The tracker constructed again 20 days after the start of `firstCycle` (instant
1728000000): balance, target and ledger come back from storage, the mission from
`loadMissionData`. -/
def secondCycle : Tracker :=
  { firstCycle with
      currentMission := loadMissionData (some firstCycle.currentMission) 1728000000 }

/-- The state `secondCycle` after `withdraw(10)` on the second day of the new mission. -/
def secondCycleSpent : Tracker :=
  (handleWithdraw secondCycle 10 none 1814400007 (1 / 4)).2

/-- The withdrawal of 30 recorded in `firstCycle`. -/
def firstCycleWithdrawal : Transaction :=
  { id := TxId.num (86400005 + 1 / 2), type := "withdraw", amount := 30,
    description := "Expense", timestamp := 86400005, day := 2 }

/-- One call of the withdrawal workflow: `handleWithdraw` with the parsed amount, made at the
instant `now`, or `deleteTransaction(transactionId)`. -/
inductive LedgerCall where
  | withdraw (amount : ℚ) (description : Option String) (now : Int) (rnd : ℚ)
  | delete (transactionId : TxId)

/-- The state after one call of the withdrawal workflow. -/
def LedgerCall.run (s : Tracker) : LedgerCall → Tracker
  | LedgerCall.withdraw amount description now rnd =>
    (handleWithdraw s amount description now rnd).2
  | LedgerCall.delete transactionId => (deleteTransaction s transactionId).2

/-- A withdrawal is inside the mission window when between 0 and 13 whole days have elapsed
since `startDate`; a deletion may happen at any time. -/
def LedgerCall.inWindow (startDate : Int) : LedgerCall → Prop
  | LedgerCall.withdraw _ _ now _ => 0 ≤ daysDiff now startDate ∧ daysDiff now startDate < 14
  | LedgerCall.delete _ => True

/-- The bookkeeping invariant of one mission: the expense array has 14 entries, every withdraw
record of the ledger has a positive amount and was stamped inside the mission window with the
day that its timestamp gives, and each bucket is the sum of the withdraw records of its
day. -/
def BucketsMatch (startDate : Int) (s : Tracker) : Prop :=
  s.currentMission.startDate = startDate ∧
  s.currentMission.dailyExpenses.length = 14 ∧
  (∀ t ∈ s.transactions, t.type = "withdraw" →
    0 < t.amount ∧ 0 ≤ daysDiff t.timestamp startDate ∧ daysDiff t.timestamp startDate < 14 ∧
      t.day = daysDiff t.timestamp startDate + 1) ∧
  ∀ d : Nat, d < 14 →
    s.currentMission.dailyExpenses.getD d 0 = withdrawnOnDay s.transactions d

/-- Source `handleDeposit`; `amount` is the parsed form field, `description` the form's
description field (`none` when absent). -/
def handleDeposit (s : Tracker) (amount : ℚ) (description : Option String)
    (now : Int) (rnd : ℚ) : Except String Unit × Tracker :=
  let description :=
    match description with
    | some d => if d = "" then "Deposit" else d
    | none => "Deposit"
  if amount ≤ 0 then
    (Except.error "Amount must be greater than 0", s)
  else
    (Except.ok (), (addTransaction s "deposit" amount description now rnd).2)

/-- The loop `for (let i = ...; i < 14; i++) { dailyTargets[i] = target; }` of
`handleTargetUpdate`, entered with the counter at `i`.  An assignment at a negative `i` makes
a property of that name and touches no element of the array. -/
def fillTargets (target : ℚ) (i : Int) (dailyTargets : List ℚ) : List ℚ :=
  if i < 14 then
    fillTargets target (i + 1)
      (if 0 ≤ i then dailyTargets.set i.toNat target else dailyTargets)
  else dailyTargets
termination_by (14 - i).toNat
decreasing_by omega

/-- Source `handleTargetUpdate`; `target` is the parsed form field. -/
def handleTargetUpdate (s : Tracker) (target : ℚ) (now : Int) :
    Except String Unit × Tracker :=
  if target ≤ 0 then
    (Except.error "Target must be greater than 0", s)
  else
    let s1 := { s with dailyTarget := target }
    (Except.ok (),
      { s1 with currentMission :=
          { s1.currentMission with
              dailyTargets :=
                fillTargets target (getCurrentDay s1 now - 1) s1.currentMission.dailyTargets } })

/-- Source `getTodaysExpenses`. -/
def getTodaysExpenses (s : Tracker) (now : Int) : ℚ :=
  let currentDay := getCurrentDay s now - 1
  if currentDay ≥ 0 ∧ currentDay < 14 then
    s.currentMission.dailyExpenses.getD currentDay.toNat 0
  else 0

/-- The value `available` that `updateBalanceDisplay` computes and shows:
`Math.max(0, this.dailyTarget - todaysExpenses)`. -/
def availableToday (s : Tracker) (now : Int) : ℚ :=
  max 0 (s.dailyTarget - getTodaysExpenses s now)

/-- The day index of the specification: `clamp(floor((now - startDate) / one day) + 1, 1, 14)`,
written after the words of the specification for comparison with `getCurrentDay`. -/
def specCurrentDayIndex (s : Tracker) (now : Int) : Int :=
  max 1 (min (daysDiff now s.currentMission.startDate + 1) 14)

/-- Source `deleteTransactionConfirm`; `confirmed` is the answer of `confirm(...)`.  The
first component is the toast shown, if any. -/
def deleteTransactionConfirm (s : Tracker) (transactionId : TxId) (confirmed : Bool) :
    Option String × Tracker :=
  if confirmed then
    if (deleteTransaction s transactionId).1 then
      (some "Transaction deleted successfully!", (deleteTransaction s transactionId).2)
    else
      (some "Failed to delete transaction!", (deleteTransaction s transactionId).2)
  else (none, s)

/-- A click on the delete control that `renderHistory` and `showTransactionContextMenu` write
for the record `t`: its `onclick` text is `tracker.deleteTransactionConfirm('...')` with the
identifier interpolated between quotes, so the argument is a string.  `render` is the text
that the template literal gives for an identifier. -/
def clickDelete (render : TxId → String) (s : Tracker) (t : Transaction) (confirmed : Bool) :
    Option String × Tracker :=
  deleteTransactionConfirm s (TxId.str (render t.id)) confirmed

/-- One call of a handler whose parsed number is finite: `handleDeposit`, `handleWithdraw` or
`handleTargetUpdate` with that number and the instant of the call, or `deleteTransaction`.
A field that parses to `NaN` or `Infinity` is outside this type; see `handleDepositNum`,
`handleWithdrawNum` and `handleTargetUpdateNum`. -/
inductive HandlerCall where
  | deposit (amount : ℚ) (description : Option String) (now : Int) (rnd : ℚ)
  | withdraw (amount : ℚ) (description : Option String) (now : Int) (rnd : ℚ)
  | target (value : ℚ) (now : Int)
  | delete (transactionId : TxId)

/-- The state after one handler call. -/
def HandlerCall.run (s : Tracker) : HandlerCall → Tracker
  | HandlerCall.deposit amount description now rnd =>
    (handleDeposit s amount description now rnd).2
  | HandlerCall.withdraw amount description now rnd =>
    (handleWithdraw s amount description now rnd).2
  | HandlerCall.target value now => (handleTargetUpdate s value now).2
  | HandlerCall.delete transactionId => (deleteTransaction s transactionId).2

/-- A tracker created at instant 86400000 with balance 100, then `withdraw(30)` half a second
later, on day 1. -/
def dayOneSpent : Tracker :=
  (handleWithdraw (freshTracker 100 86400000) 30 none 86400500 (1 / 2)).2

/-! ### The handlers on numbers that may be `NaN` or infinite

The definitions above take the parsed amount as a rational, that is, as a finite number.
`parseFloat` can also give `NaN` (an empty field) and `Infinity` (the text `1e309`); the
definitions below follow the same source lines with numbers that may be `NaN` or infinite,
and `handleDepositNum_refines`, `handleWithdrawNum_refines`, `handleTargetUpdateNum_refines`
and `deleteTransactionNum_refines` show that on finite numbers they are the definitions
above. -/

/-- A JavaScript number as `parseFloat` gives it: `NaN`, a finite number, `Infinity` or
`-Infinity`.  Arithmetic on finite numbers is exact. -/
inductive JsNum where
  | nan
  | fin (q : ℚ)
  | posInf
  | negInf
  deriving DecidableEq

/-- The operator `+` on numbers: `NaN` when either side is, and for `Infinity + -Infinity`. -/
def JsNum.add : JsNum → JsNum → JsNum
  | JsNum.fin a, JsNum.fin b => JsNum.fin (a + b)
  | JsNum.posInf, JsNum.fin _ => JsNum.posInf
  | JsNum.fin _, JsNum.posInf => JsNum.posInf
  | JsNum.posInf, JsNum.posInf => JsNum.posInf
  | JsNum.negInf, JsNum.fin _ => JsNum.negInf
  | JsNum.fin _, JsNum.negInf => JsNum.negInf
  | JsNum.negInf, JsNum.negInf => JsNum.negInf
  | _, _ => JsNum.nan

/-- The operator `-` on numbers: `NaN` when either side is, and for `Infinity - Infinity`. -/
def JsNum.sub : JsNum → JsNum → JsNum
  | JsNum.fin a, JsNum.fin b => JsNum.fin (a - b)
  | JsNum.posInf, JsNum.fin _ => JsNum.posInf
  | JsNum.posInf, JsNum.negInf => JsNum.posInf
  | JsNum.fin _, JsNum.negInf => JsNum.posInf
  | JsNum.negInf, JsNum.fin _ => JsNum.negInf
  | JsNum.negInf, JsNum.posInf => JsNum.negInf
  | JsNum.fin _, JsNum.posInf => JsNum.negInf
  | _, _ => JsNum.nan

/-- The comparison `<=`: `false` when either side is `NaN`. -/
def JsNum.le : JsNum → JsNum → Bool
  | JsNum.fin a, JsNum.fin b => decide (a ≤ b)
  | JsNum.nan, _ => false
  | _, JsNum.nan => false
  | JsNum.negInf, _ => true
  | _, JsNum.posInf => true
  | _, _ => false

/-- The comparison `>`: `false` when either side is `NaN`. -/
def JsNum.gt : JsNum → JsNum → Bool
  | JsNum.fin a, JsNum.fin b => decide (a > b)
  | JsNum.nan, _ => false
  | _, JsNum.nan => false
  | JsNum.posInf, JsNum.posInf => false
  | JsNum.negInf, JsNum.negInf => false
  | JsNum.posInf, _ => true
  | _, JsNum.negInf => true
  | _, _ => false

/-- The function `Math.max` of two numbers: `NaN` when either argument is. -/
def JsNum.max : JsNum → JsNum → JsNum
  | JsNum.fin a, JsNum.fin b => JsNum.fin (Max.max a b)
  | JsNum.nan, _ => JsNum.nan
  | _, JsNum.nan => JsNum.nan
  | JsNum.posInf, _ => JsNum.posInf
  | _, JsNum.posInf => JsNum.posInf
  | JsNum.negInf, b => b
  | a, JsNum.negInf => a

/-- The transaction record with an amount that may be `NaN` or infinite. -/
structure NumTransaction where
  id : TxId
  type : String
  amount : JsNum
  description : String
  timestamp : Int
  day : Int
  deriving DecidableEq

/-- The mission record with numbers that may be `NaN` or infinite. -/
structure NumMission where
  startDate : Int
  currentDay : Int
  dailyTargets : List JsNum
  dailyExpenses : List JsNum
  totalTarget : JsNum
  deriving DecidableEq

/-- The mutable fields of a `FinancialTracker` with numbers that may be `NaN` or infinite. -/
structure NumTracker where
  balance : JsNum
  dailyTarget : JsNum
  transactions : List NumTransaction
  currentMission : NumMission
  deriving DecidableEq

/-- A record of the rational model as a record of this one. -/
def Transaction.toNum (t : Transaction) : NumTransaction :=
  { id := t.id, type := t.type, amount := JsNum.fin t.amount, description := t.description,
    timestamp := t.timestamp, day := t.day }

/-- A mission of the rational model as a mission of this one. -/
def Mission.toNum (m : Mission) : NumMission :=
  { startDate := m.startDate, currentDay := m.currentDay,
    dailyTargets := m.dailyTargets.map JsNum.fin,
    dailyExpenses := m.dailyExpenses.map JsNum.fin,
    totalTarget := JsNum.fin m.totalTarget }

/-- A state of the rational model as a state of this one. -/
def Tracker.toNum (s : Tracker) : NumTracker :=
  { balance := JsNum.fin s.balance, dailyTarget := JsNum.fin s.dailyTarget,
    transactions := s.transactions.map Transaction.toNum,
    currentMission := s.currentMission.toNum }

/-- Source `getCurrentDay`, on a `NumTracker`. -/
def getCurrentDayNum (s : NumTracker) (now : Int) : Int :=
  min (daysDiff now s.currentMission.startDate + 1) 14

/-- Source `addTransaction`, with an amount that may be `NaN` or infinite.  The read
`dailyExpenses[today]` of an index past the end gives `undefined`, and `undefined + amount`
is `NaN`. -/
def addTransactionNum (s : NumTracker) (type : String) (amount : JsNum)
    (description : String) (now : Int) (rnd : ℚ) : NumTransaction × NumTracker :=
  let transaction : NumTransaction :=
    { id := TxId.num ((now : ℚ) + rnd)
      type := type
      amount := amount
      description := description
      timestamp := now
      day := getCurrentDayNum s now }
  let s1 := { s with transactions := transaction :: s.transactions }
  if type = "deposit" then
    (transaction, { s1 with balance := s1.balance.add transaction.amount })
  else if type = "withdraw" then
    let s2 := { s1 with balance := s1.balance.sub transaction.amount }
    let today := getCurrentDayNum s2 now - 1
    if today ≥ 0 ∧ today < 14 then
      let e := s2.currentMission.dailyExpenses
      (transaction,
        { s2 with currentMission :=
            { s2.currentMission with
                dailyExpenses :=
                  e.set today.toNat ((e.getD today.toNat JsNum.nan).add transaction.amount) } })
    else (transaction, s2)
  else (transaction, s1)

/-- Source `handleDeposit`; `amount` is `parseFloat(formData.get('amount'))`. -/
def handleDepositNum (s : NumTracker) (amount : JsNum) (description : Option String)
    (now : Int) (rnd : ℚ) : Except String Unit × NumTracker :=
  let description :=
    match description with
    | some d => if d = "" then "Deposit" else d
    | none => "Deposit"
  if amount.le (JsNum.fin 0) then
    (Except.error "Amount must be greater than 0", s)
  else
    (Except.ok (), (addTransactionNum s "deposit" amount description now rnd).2)

/-- Source `handleWithdraw`; `amount` is `parseFloat(formData.get('amount'))`. -/
def handleWithdrawNum (s : NumTracker) (amount : JsNum) (description : Option String)
    (now : Int) (rnd : ℚ) : Except String Unit × NumTracker :=
  let description :=
    match description with
    | some d => if d = "" then "Expense" else d
    | none => "Expense"
  if amount.le (JsNum.fin 0) then
    (Except.error "Amount must be greater than 0", s)
  else if amount.gt s.balance then
    (Except.error "Insufficient balance", s)
  else
    (Except.ok (), (addTransactionNum s "withdraw" amount description now rnd).2)

/-- The loop of `handleTargetUpdate`, with a target that may be `NaN` or infinite. -/
def fillTargetsNum (target : JsNum) (i : Int) (dailyTargets : List JsNum) : List JsNum :=
  if i < 14 then
    fillTargetsNum target (i + 1)
      (if 0 ≤ i then dailyTargets.set i.toNat target else dailyTargets)
  else dailyTargets
termination_by (14 - i).toNat
decreasing_by omega

/-- Source `handleTargetUpdate`; `target` is `parseFloat(formData.get('target'))`. -/
def handleTargetUpdateNum (s : NumTracker) (target : JsNum) (now : Int) :
    Except String Unit × NumTracker :=
  if target.le (JsNum.fin 0) then
    (Except.error "Target must be greater than 0", s)
  else
    let s1 := { s with dailyTarget := target }
    (Except.ok (),
      { s1 with currentMission :=
          { s1.currentMission with
              dailyTargets :=
                fillTargetsNum target (getCurrentDayNum s1 now - 1)
                  s1.currentMission.dailyTargets } })

/-- The reversing branch of `deleteTransaction`, on numbers that may be `NaN` or infinite.
The read `dailyExpenses[dayIndex]` of an index past the end gives `undefined`, and
`undefined - amount` is `NaN`. -/
def reverseTransactionNum (s : NumTracker) (transaction : NumTransaction) : NumTracker :=
  if transaction.type = "deposit" then
    { s with balance := s.balance.sub transaction.amount }
  else if transaction.type = "withdraw" then
    let s2 := { s with balance := s.balance.add transaction.amount }
    let dayIndex := daysDiff transaction.timestamp s2.currentMission.startDate
    if dayIndex ≥ 0 ∧ dayIndex < 14 then
      let e := s2.currentMission.dailyExpenses
      { s2 with currentMission :=
          { s2.currentMission with
              dailyExpenses :=
                e.set dayIndex.toNat
                  (JsNum.max (JsNum.fin 0)
                    ((e.getD dayIndex.toNat JsNum.nan).sub transaction.amount)) } }
    else s2
  else s

/-- Source `deleteTransaction`, on a `NumTracker`. -/
def deleteTransactionNum (s : NumTracker) (transactionId : TxId) : Bool × NumTracker :=
  match findIndex (fun t => decide (t.id = transactionId)) s.transactions with
  | some index =>
    match s.transactions.get? index with
    | some transaction =>
      let s1 := reverseTransactionNum s transaction
      (true, { s1 with transactions := s1.transactions.eraseIdx index })
    | none => (false, s)
  | none => (false, s)

/-- On a fresh empty tracker (mission started at instant 0): a deposit whose amount field
reads `1e309`, which `parseFloat` turns into `Infinity`. -/
def infiniteDeposit : NumTracker :=
  (handleDepositNum (freshTracker 0 0).toNum JsNum.posInf none 1000 (1 / 8)).2

/-- The state `infiniteDeposit` after a withdrawal whose amount field reads `1e309`. -/
def infiniteWithdrawal : NumTracker :=
  (handleWithdrawNum infiniteDeposit JsNum.posInf none 5000 (1 / 2)).2

/-- The state `infiniteWithdrawal` after deleting that withdrawal. -/
def infiniteWithdrawalDeleted : NumTracker :=
  (deleteTransactionNum infiniteWithdrawal (TxId.num (5000 + 1 / 2))).2

/-! ### Import of a document -/

/-- A value of a parsed JSON document, and `undefined`, which reading a missing property
gives. -/
inductive JsVal where
  | undefined
  | null
  | bool (b : Bool)
  | num (n : ℚ)
  | str (s : String)
  | arr (items : List JsVal)
  | obj (fields : List (String × JsVal))

/-- The test `v !== undefined`, negated. -/
def JsVal.isUndefined : JsVal → Bool
  | JsVal.undefined => true
  | _ => false

/-- Truthiness, as `&&` and `||` test it: `undefined`, `null`, `false`, `0` and the empty
string are falsy, every array and every object is truthy. -/
def JsVal.truthy : JsVal → Bool
  | JsVal.undefined => false
  | JsVal.null => false
  | JsVal.bool b => b
  | JsVal.num n => decide (n ≠ 0)
  | JsVal.str s => decide (s ≠ "")
  | JsVal.arr _ => true
  | JsVal.obj _ => true

/-- The property read `data.key` for a `data` other than `null`, for the four names that
`importData` reads: the value of the property in an object, `undefined` in any other
value. -/
def JsVal.get (data : JsVal) (key : String) : JsVal :=
  match data with
  | JsVal.obj fields => (fields.lookup key).getD JsVal.undefined
  | _ => JsVal.undefined

/-- The four tracker fields as `importData` leaves them: it assigns the values of the
document as they are, whatever their kind. -/
structure RawTracker where
  balance : JsVal
  dailyTarget : JsVal
  transactions : JsVal
  currentMission : JsVal

/-- The four assignments of the accepting branch of `importData`: the fields take the values
of the document, `dailyTarget` the value `data.dailyTarget || 0`. -/
def importedFields (data : JsVal) : RawTracker :=
  { balance := data.get "balance"
    dailyTarget :=
      if (data.get "dailyTarget").truthy = true then data.get "dailyTarget"
      else JsVal.num 0
    transactions := data.get "transactions"
    currentMission := data.get "currentMission" }

/-- Source `importData`, from the parsed document `data` on (the body of the `try` and its
`catch`).

`finish` stands for the two calls `this.autoSave(); this.updateDisplay();` that close the
accepting branch inside the same `try`, after the four assignments.  Applied to the fields
just assigned it is `none` when both calls return and `some message` when one of them throws
an error with that message: they read the new fields and throw on values of the wrong kind,
as `recentTransactions.map` does when `transactions` is a string.  The `catch` then shows the
failure toast, and the fields stay as assigned.

The first component of the result is `ok` when the success toast is shown and otherwise the
text of the error toast.  Reading a property of `null` throws a `TypeError`, which the same
`catch` reports. -/
def importData (finish : RawTracker → Option String) (s : RawTracker) (data : JsVal) :
    Except String Unit × RawTracker :=
  match data with
  | JsVal.null =>
    (Except.error "Failed to import data: Cannot read properties of null",
      s)
  | _ =>
    if (!(data.get "balance").isUndefined && (data.get "transactions").truthy
        && (data.get "currentMission").truthy) = true then
      match finish (importedFields data) with
      | none => (Except.ok (), importedFields data)
      | some message =>
        (Except.error ("Failed to import data: " ++ message), importedFields data)
    else
      (Except.error "Failed to import data: Invalid file format", s)

/-- The condition of the specification on a document: it has a `balance`, its `transactions`
is a collection and its `currentMission` is a record. -/
def specImportable (data : JsVal) : Prop :=
  (data.get "balance").isUndefined = false ∧
  (∃ items, data.get "transactions" = JsVal.arr items) ∧
  (∃ fields, data.get "currentMission" = JsVal.obj fields)

/-- A document with a balance whose `transactions` is a string and whose `currentMission` is
a number. -/
def looseDocument : JsVal :=
  JsVal.obj [("balance", JsVal.num 5), ("transactions", JsVal.str "none"),
    ("currentMission", JsVal.num 1)]

/-- The fields of a tracker before an import: balance 70, target 40, an empty ledger and a
mission on its third day. -/
def rawSample : RawTracker :=
  { balance := JsVal.num 70, dailyTarget := JsVal.num 40, transactions := JsVal.arr [],
    currentMission :=
      JsVal.obj [("startDate", JsVal.str "2026-01-01"), ("currentDay", JsVal.num 3),
        ("dailyTargets", JsVal.arr (List.replicate 14 (JsVal.num 40))),
        ("dailyExpenses", JsVal.arr (List.replicate 14 (JsVal.num 0))),
        ("totalTarget", JsVal.num 0)] }

end FinancialTracker

/-! ## Theorems -/

namespace FinancialTracker

theorem daysDiff_eq (now startDate : Int) :
    daysDiff now startDate = (now - startDate) / 86400000 := by
  unfold daysDiff msPerDay
  have h := Rat.floor_intCast_div_natCast (now - startDate) 86400000
  norm_num at h ⊢
  exact h

theorem todayDate_eq (now : Int) : todayDate now = now / 86400000 * 86400000 := by
  unfold todayDate msPerDay
  have h := Rat.floor_intCast_div_natCast now 86400000
  norm_num at h ⊢
  exact h

/-! ### The lookup of `deleteTransaction` -/

theorem findIndex_eq_none {α : Type} (p : α → Bool) (l : List α) :
    findIndex p l = none ↔ ∀ x ∈ l, p x = false := by
  induction l with
  | nil => simp [findIndex]
  | cons x xs ih =>
    by_cases hx : p x = true
    · simp [findIndex, hx]
    · simp [findIndex, hx, ih]

theorem findIndex_split {α : Type} (p : α → Bool) (pre post : List α) (t : α)
    (hpre : ∀ x ∈ pre, p x = false) (ht : p t = true) :
    findIndex p (pre ++ t :: post) = some pre.length := by
  induction pre with
  | nil => simp [findIndex, ht]
  | cons x xs ih =>
    have hx : p x = false := hpre x (List.mem_cons_self x xs)
    have hxs : ∀ y ∈ xs, p y = false := fun y hy => hpre y (List.mem_cons_of_mem x hy)
    simp [findIndex, hx, ih hxs]

theorem findIndex_some_split {α : Type} (p : α → Bool) (l : List α) (i : Nat)
    (h : findIndex p l = some i) :
    ∃ pre t post, l = pre ++ t :: post ∧ pre.length = i ∧ p t = true ∧
      ∀ x ∈ pre, p x = false := by
  induction l generalizing i with
  | nil => simp [findIndex] at h
  | cons x xs ih =>
    by_cases hx : p x = true
    · simp [findIndex, hx] at h
      exact ⟨[], x, xs, rfl, by simpa using h, hx, by simp⟩
    · simp only [findIndex, hx] at h
      cases hf : findIndex p xs with
      | none => simp [hf] at h
      | some j =>
        obtain ⟨pre, t, post, hl, hlen, ht, hp⟩ := ih j hf
        simp [hf] at h
        refine ⟨x :: pre, t, post, by simp [hl], by simp [hlen, h], ht, ?_⟩
        intro y hy
        rcases List.mem_cons.mp hy with rfl | hy
        · simpa using hx
        · exact hp y hy

theorem deleteTransaction_absent (s : Tracker) (transactionId : TxId)
    (h : ∀ t ∈ s.transactions, t.id ≠ transactionId) :
    deleteTransaction s transactionId = (false, s) := by
  have hn : findIndex (fun t => decide (t.id = transactionId)) s.transactions = none := by
    rw [findIndex_eq_none]
    intro x hx
    simpa using h x hx
  simp [deleteTransaction, hn]

theorem reverseTransaction_transactions (s : Tracker) (t : Transaction) :
    (reverseTransaction s t).transactions = s.transactions := by
  unfold reverseTransaction
  dsimp only
  split_ifs <;> rfl

theorem deleteTransaction_present (s : Tracker) (transactionId : TxId)
    (pre post : List Transaction) (t : Transaction)
    (hl : s.transactions = pre ++ t :: post)
    (hpre : ∀ u ∈ pre, u.id ≠ transactionId) (ht : t.id = transactionId) :
    deleteTransaction s transactionId =
      (true, { reverseTransaction s t with transactions := pre ++ post }) := by
  have hf : findIndex (fun t => decide (t.id = transactionId)) s.transactions
      = some pre.length := by
    rw [hl]
    apply findIndex_split
    · intro x hx
      simpa using hpre x hx
    · simpa using ht
  have hg : s.transactions.get? pre.length = some t := by
    rw [hl, List.get?_eq_getElem?, List.getElem?_append_right (le_refl _)]
    simp
  have he : (pre ++ t :: post).eraseIdx pre.length = pre ++ post := by
    rw [List.eraseIdx_append_of_length_le (le_refl _)]
    simp
  unfold deleteTransaction
  rw [hf]
  dsimp only
  rw [hg]
  dsimp only
  rw [reverseTransaction_transactions, hl, he]

/-- Every identifier either misses the list or hits a first record. -/
theorem first_with_id (l : List Transaction) (transactionId : TxId) :
    (∀ t ∈ l, t.id ≠ transactionId) ∨
    ∃ pre t post, l = pre ++ t :: post ∧ (∀ u ∈ pre, u.id ≠ transactionId) ∧
      t.id = transactionId := by
  cases hf : findIndex (fun t => decide (t.id = transactionId)) l with
  | none =>
    left
    rw [findIndex_eq_none] at hf
    intro t ht
    simpa using hf t ht
  | some i =>
    right
    obtain ⟨pre, t, post, hl, _, ht, hp⟩ := findIndex_some_split _ l i hf
    refine ⟨pre, t, post, hl, ?_, by simpa using ht⟩
    intro u hu
    simpa using hp u hu

/-! ### Field-by-field effect of the two mutators -/

theorem reverseTransaction_balance (s : Tracker) (t : Transaction) :
    (reverseTransaction s t).balance =
      if t.type = "deposit" then s.balance - t.amount
      else if t.type = "withdraw" then s.balance + t.amount
      else s.balance := by
  unfold reverseTransaction
  dsimp only
  split_ifs <;> rfl

theorem addTransaction_transactions (s : Tracker) (type : String) (amount : ℚ)
    (description : String) (now : Int) (rnd : ℚ) :
    (addTransaction s type amount description now rnd).2.transactions =
      (addTransaction s type amount description now rnd).1 :: s.transactions := by
  unfold addTransaction
  dsimp only
  split_ifs <;> rfl

theorem addTransaction_fst (s : Tracker) (type : String) (amount : ℚ)
    (description : String) (now : Int) (rnd : ℚ) :
    (addTransaction s type amount description now rnd).1 =
      { id := TxId.num ((now : ℚ) + rnd), type := type, amount := amount,
        description := description, timestamp := now, day := getCurrentDay s now } := by
  unfold addTransaction
  dsimp only
  split_ifs <;> rfl

theorem addTransaction_balance (s : Tracker) (type : String) (amount : ℚ)
    (description : String) (now : Int) (rnd : ℚ) :
    (addTransaction s type amount description now rnd).2.balance =
      if type = "deposit" then s.balance + amount
      else if type = "withdraw" then s.balance - amount
      else s.balance := by
  unfold addTransaction
  dsimp only
  split_ifs <;> rfl

theorem sumOfType_cons (type : String) (t : Transaction) (l : List Transaction) :
    sumOfType type (t :: l) =
      (if t.type = type then t.amount else 0) + sumOfType type l := by
  unfold sumOfType
  by_cases h : t.type = type <;> simp [List.filter_cons, h]

theorem sumOfType_append (type : String) (l₁ l₂ : List Transaction) :
    sumOfType type (l₁ ++ l₂) = sumOfType type l₁ + sumOfType type l₂ := by
  unfold sumOfType
  simp [List.filter_append]

theorem withdraw_ne_deposit : ¬ ("withdraw" = "deposit") := by decide

theorem addTransaction_balanced (s : Tracker) (type : String) (amount : ℚ)
    (description : String) (now : Int) (rnd : ℚ)
    (h : s.balance = sumOfType "deposit" s.transactions - sumOfType "withdraw" s.transactions) :
    (addTransaction s type amount description now rnd).2.balance =
      sumOfType "deposit" (addTransaction s type amount description now rnd).2.transactions
        - sumOfType "withdraw" (addTransaction s type amount description now rnd).2.transactions := by
  rw [addTransaction_transactions, addTransaction_balance, addTransaction_fst,
    sumOfType_cons, sumOfType_cons, h]
  by_cases hd : type = "deposit"
  · subst hd
    simp
    ring
  · by_cases hw : type = "withdraw"
    · subst hw
      simp
      ring
    · simp [hd, hw]

theorem deleteTransaction_balanced (s : Tracker) (transactionId : TxId)
    (h : s.balance = sumOfType "deposit" s.transactions - sumOfType "withdraw" s.transactions) :
    (deleteTransaction s transactionId).2.balance =
      sumOfType "deposit" (deleteTransaction s transactionId).2.transactions
        - sumOfType "withdraw" (deleteTransaction s transactionId).2.transactions := by
  rcases first_with_id s.transactions transactionId with hno | ⟨pre, t, post, hl, hpre, ht⟩
  · rw [deleteTransaction_absent s transactionId hno]
    exact h
  · rw [deleteTransaction_present s transactionId pre post t hl hpre ht]
    dsimp only
    rw [reverseTransaction_balance, h, hl]
    simp only [sumOfType_append, sumOfType_cons]
    by_cases hd : t.type = "deposit"
    · have hw : ¬ t.type = "withdraw" := by rw [hd]; decide
      simp [hd]
      ring
    · by_cases hw : t.type = "withdraw"
      · simp [hw]
        ring
      · simp [hd, hw]

/-- C1. Starting from balance 0 and an empty transaction list (any mission, any daily
target), after every finite sequence of `addTransaction` and `deleteTransaction` calls the
balance is the sum of the amounts of the deposit records still in the list minus the sum of
the amounts of the withdraw records still in the list.  The calls may carry any type string,
in particular `deposit` and `withdraw`. -/
theorem balance_invariant (dailyTarget : ℚ) (mission : Mission) (calls : List Call) :
    (runCalls ⟨0, dailyTarget, [], mission⟩ calls).balance =
      sumOfType "deposit" (runCalls ⟨0, dailyTarget, [], mission⟩ calls).transactions
        - sumOfType "withdraw" (runCalls ⟨0, dailyTarget, [], mission⟩ calls).transactions := by
  have key : ∀ (cs : List Call) (s : Tracker),
      s.balance = sumOfType "deposit" s.transactions - sumOfType "withdraw" s.transactions →
      (runCalls s cs).balance =
        sumOfType "deposit" (runCalls s cs).transactions
          - sumOfType "withdraw" (runCalls s cs).transactions := by
    intro cs
    induction cs with
    | nil => intro s hs; exact hs
    | cons c cs ih =>
      intro s hs
      show (runCalls (Call.run s c) cs).balance = _
      apply ih
      cases c with
      | add type amount description now rnd =>
        exact addTransaction_balanced s type amount description now rnd hs
      | delete transactionId => exact deleteTransaction_balanced s transactionId hs
  apply key
  simp [sumOfType]

/-- C3. `handleWithdraw` throws exactly when `amount <= 0` or `amount > balance` (with the
invalid-amount message in the first case and the insufficient-balance message otherwise);
when it throws the whole state is what it was before the call; when it does not throw the
balance has gone down by exactly `amount`. -/
theorem handleWithdraw_contract (s : Tracker) (amount : ℚ) (description : Option String)
    (now : Int) (rnd : ℚ) :
    ((∃ msg, (handleWithdraw s amount description now rnd).1 = Except.error msg) ↔
        (amount ≤ 0 ∨ amount > s.balance)) ∧
    (amount ≤ 0 → (handleWithdraw s amount description now rnd).1
        = Except.error "Amount must be greater than 0") ∧
    (0 < amount → amount > s.balance → (handleWithdraw s amount description now rnd).1
        = Except.error "Insufficient balance") ∧
    ((∃ msg, (handleWithdraw s amount description now rnd).1 = Except.error msg) →
        (handleWithdraw s amount description now rnd).2 = s) ∧
    ((handleWithdraw s amount description now rnd).1 = Except.ok () →
        (handleWithdraw s amount description now rnd).2.balance = s.balance - amount) := by
  unfold handleWithdraw
  dsimp only
  by_cases h0 : amount ≤ 0
  · simp [h0]
  · by_cases hb : amount > s.balance
    · have hpos : 0 < amount := lt_of_not_ge h0
      simp [h0, hb, hpos]
    · simp [h0, hb, addTransaction_balance]

/-- C3, instance: with balance 30, `withdraw(50)` fails with the insufficient-balance message
and the state, so the balance 30, stays; `withdraw(20)` succeeds and leaves balance 10. -/
theorem handleWithdraw_contract_witness :
    (∃ msg, (handleWithdraw (freshTracker 30 0) 50 none 5000 (1 / 2)).1 = Except.error msg) ∧
    (handleWithdraw (freshTracker 30 0) 50 none 5000 (1 / 2)).1
      = Except.error "Insufficient balance" ∧
    (handleWithdraw (freshTracker 30 0) 50 none 5000 (1 / 2)).2 = freshTracker 30 0 ∧
    (handleWithdraw (freshTracker 30 0) 20 none 5000 (1 / 2)).2.balance = 30 - 20 :=
  have big : (50 : ℚ) > (freshTracker 30 0).balance := by norm_num [freshTracker]
  have h := handleWithdraw_contract (freshTracker 30 0) 50 none 5000 (1 / 2)
  have h2 := handleWithdraw_contract (freshTracker 30 0) 20 none 5000 (1 / 2)
  ⟨h.1.mpr (Or.inr big), h.2.2.1 (by norm_num) big, h.2.2.2.1 (h.1.mpr (Or.inr big)),
    h2.2.2.2.2 (by norm_num [handleWithdraw, freshTracker])⟩

/-- C4. If no record of the list has the identifier, `deleteTransaction` returns `false` and
leaves the whole state unchanged.  If some record has it, the list splits around the first
such record `t` as `pre ++ t :: post`, `deleteTransaction` returns `true`, the new list is
`pre ++ post` (that one record removed, the others in their order), and the balance has gone
down by `t.amount` for a deposit and up by `t.amount` for a withdraw. -/
theorem deleteTransaction_contract (s : Tracker) (transactionId : TxId) :
    ((∀ t ∈ s.transactions, t.id ≠ transactionId) →
        deleteTransaction s transactionId = (false, s)) ∧
    ((∃ t ∈ s.transactions, t.id = transactionId) →
        ∃ pre t post, s.transactions = pre ++ t :: post ∧ t.id = transactionId ∧
          (∀ u ∈ pre, u.id ≠ transactionId) ∧
          (deleteTransaction s transactionId).1 = true ∧
          (deleteTransaction s transactionId).2.transactions = pre ++ post ∧
          (t.type = "deposit" →
            (deleteTransaction s transactionId).2.balance = s.balance - t.amount) ∧
          (t.type = "withdraw" →
            (deleteTransaction s transactionId).2.balance = s.balance + t.amount)) := by
  refine ⟨deleteTransaction_absent s transactionId, ?_⟩
  rintro ⟨t0, ht0, hid0⟩
  rcases first_with_id s.transactions transactionId with hno | ⟨pre, t, post, hl, hpre, ht⟩
  · exact absurd hid0 (hno t0 ht0)
  · refine ⟨pre, t, post, hl, ht, hpre, ?_⟩
    rw [deleteTransaction_present s transactionId pre post t hl hpre ht]
    refine ⟨rfl, rfl, ?_, ?_⟩
    · intro hd
      simp [reverseTransaction_balance, hd]
    · intro hw
      have hd : ¬ t.type = "deposit" := by rw [hw]; decide
      simp [reverseTransaction_balance, hd, hw]

/-- C4, instance: on the two-record sample ledger an unknown identifier is refused and
nothing changes, and the identifier of the deposit is found and removed. -/
theorem deleteTransaction_contract_witness :
    deleteTransaction sampleTracker (TxId.num 7) = (false, sampleTracker) ∧
    ∃ pre t post, sampleTracker.transactions = pre ++ t :: post ∧ t.id = TxId.num 1000 ∧
      (∀ u ∈ pre, u.id ≠ TxId.num 1000) ∧
      (deleteTransaction sampleTracker (TxId.num 1000)).1 = true ∧
      (deleteTransaction sampleTracker (TxId.num 1000)).2.transactions = pre ++ post ∧
      (t.type = "deposit" →
        (deleteTransaction sampleTracker (TxId.num 1000)).2.balance
          = sampleTracker.balance - t.amount) ∧
      (t.type = "withdraw" →
        (deleteTransaction sampleTracker (TxId.num 1000)).2.balance
          = sampleTracker.balance + t.amount) :=
  ⟨(deleteTransaction_contract sampleTracker (TxId.num 7)).1 (by simp [sampleTracker]),
    (deleteTransaction_contract sampleTracker (TxId.num 1000)).2
      ⟨_, List.mem_cons_of_mem _ (List.mem_cons_self _ _), rfl⟩⟩

/-! ### Evaluation of the sample runs -/

theorem lateWithdrawal_eq :
    lateWithdrawal =
      ⟨70, 0,
        [⟨TxId.num (1209600000 + 1 / 2), "withdraw", 30, "Expense", 1209600000, 14⟩],
        ⟨0, 1, List.replicate 14 0, [0, 0, 0, 0, 0, 0, 0, 0, 0, 0, 0, 0, 0, 30], 0⟩⟩ := by
  simp [lateWithdrawal, freshTracker, handleWithdraw, addTransaction, getCurrentDay,
    daysDiff_eq, createNewMission, todayDate_eq]
  norm_num [List.replicate]

theorem lateWithdrawalDeleted_eq :
    lateWithdrawalDeleted =
      ⟨100, 0, [],
        ⟨0, 1, List.replicate 14 0, [0, 0, 0, 0, 0, 0, 0, 0, 0, 0, 0, 0, 0, 30], 0⟩⟩ := by
  simp [lateWithdrawalDeleted, lateWithdrawal_eq, deleteTransaction, findIndex,
    reverseTransaction, daysDiff_eq]
  norm_num

theorem roundTripBefore_eq :
    roundTripBefore =
      ⟨70, 0,
        [⟨TxId.num (1209600000 + 1 / 2), "withdraw", 30, "Expense", 1209600000, 14⟩,
          ⟨TxId.num (1000 + 1 / 8), "deposit", 100, "Deposit", 1000, 1⟩],
        ⟨0, 1, List.replicate 14 0, [0, 0, 0, 0, 0, 0, 0, 0, 0, 0, 0, 0, 0, 30], 0⟩⟩ := by
  simp [roundTripBefore, freshTracker, handleWithdraw, addTransaction, getCurrentDay,
    daysDiff_eq, createNewMission, todayDate_eq]
  norm_num [List.replicate]

theorem roundTripDeleted_eq :
    roundTripDeleted =
      ⟨100, 0, [⟨TxId.num (1000 + 1 / 8), "deposit", 100, "Deposit", 1000, 1⟩],
        ⟨0, 1, List.replicate 14 0, [0, 0, 0, 0, 0, 0, 0, 0, 0, 0, 0, 0, 0, 30], 0⟩⟩ := by
  simp [roundTripDeleted, roundTripBefore_eq, deleteTransaction, findIndex,
    reverseTransaction, daysDiff_eq]
  norm_num

theorem roundTripReadded_eq :
    roundTripReadded =
      ⟨70, 0,
        [⟨TxId.num (1209601000 + 1 / 4), "withdraw", 30, "Expense", 1209601000, 14⟩,
          ⟨TxId.num (1000 + 1 / 8), "deposit", 100, "Deposit", 1000, 1⟩],
        ⟨0, 1, List.replicate 14 0, [0, 0, 0, 0, 0, 0, 0, 0, 0, 0, 0, 0, 0, 60], 0⟩⟩ := by
  simp [roundTripReadded, roundTripDeleted_eq, addTransaction, getCurrentDay, daysDiff_eq]
  norm_num

theorem secondCycleSpent_eq :
    secondCycleSpent =
      ⟨60, 0,
        [⟨TxId.num (1814400007 + 1 / 4), "withdraw", 10, "Expense", 1814400007, 2⟩,
          firstCycleWithdrawal],
        ⟨1728000000, 1, List.replicate 14 0, [0, 10, 0, 0, 0, 0, 0, 0, 0, 0, 0, 0, 0, 0],
          0⟩⟩ := by
  simp [secondCycleSpent, secondCycle, firstCycle, firstCycleWithdrawal, freshTracker,
    handleWithdraw, addTransaction, getCurrentDay, loadMissionData, daysDiff_eq,
    createNewMission, todayDate_eq]
  have h2 : Int.toNat 2 = 2 := rfl
  norm_num [List.replicate, h2]

/-- C2, failing input.  A fresh mission starts at instant 0 with balance 100 and an empty
ledger; `withdraw(30)` is accepted 14 whole days later and lands in bucket 13; deleting that
record returns `true` and empties the ledger, yet bucket 13 still holds 30 although no
withdraw record stamped with day 14 is left. -/
theorem dailyExpenses_left_behind :
    (handleWithdraw (freshTracker 100 0) 30 none 1209600000 (1 / 2)).1 = Except.ok () ∧
    lateWithdrawal.currentMission.dailyExpenses.getD 13 0 = 30 ∧
    (deleteTransaction lateWithdrawal (TxId.num (1209600000 + 1 / 2))).1 = true ∧
    lateWithdrawalDeleted.transactions = [] ∧
    lateWithdrawalDeleted.currentMission.dailyExpenses.getD 13 0 = 30 ∧
    withdrawnOnDay lateWithdrawalDeleted.transactions 13 = 0 := by
  refine ⟨?_, ?_, ?_, ?_, ?_, ?_⟩
  · norm_num [handleWithdraw, freshTracker]
  · simp [lateWithdrawal_eq]
  · simp [lateWithdrawal_eq, deleteTransaction, findIndex]
  · simp [lateWithdrawalDeleted_eq]
  · simp [lateWithdrawalDeleted_eq]
  · simp [lateWithdrawalDeleted_eq, withdrawnOnDay]

/-- C6, failing input.  In the run `roundTripBefore` the withdrawal of 30 carries day 14 and
bucket 13 holds 30.  Deleting it and adding the same withdrawal again on mission day 14
restores the balance 70 but leaves 60 in bucket 13. -/
theorem readd_after_delete_doubles_bucket :
    getCurrentDay roundTripDeleted 1209601000 = 14 ∧
    roundTripBefore.balance = 70 ∧ roundTripReadded.balance = 70 ∧
    roundTripBefore.currentMission.dailyExpenses.getD 13 0 = 30 ∧
    roundTripReadded.currentMission.dailyExpenses.getD 13 0 = 60 := by
  refine ⟨?_, ?_, ?_, ?_, ?_⟩
  · simp [roundTripDeleted_eq, getCurrentDay, daysDiff_eq]
  · simp [roundTripBefore_eq]
  · simp [roundTripReadded_eq]
  · simp [roundTripBefore_eq]
  · simp [roundTripReadded_eq]

/-! ### The expense bucket that a deletion touches -/

theorem reverseTransaction_dailyExpenses_withdraw (s : Tracker) (t : Transaction)
    (hw : t.type = "withdraw") :
    (reverseTransaction s t).currentMission.dailyExpenses =
      if 0 ≤ daysDiff t.timestamp s.currentMission.startDate ∧
          daysDiff t.timestamp s.currentMission.startDate < 14 then
        s.currentMission.dailyExpenses.set
          (daysDiff t.timestamp s.currentMission.startDate).toNat
          (max 0 (s.currentMission.dailyExpenses.getD
            (daysDiff t.timestamp s.currentMission.startDate).toNat 0 - t.amount))
      else s.currentMission.dailyExpenses := by
  have hd : ¬ t.type = "deposit" := by rw [hw]; decide
  unfold reverseTransaction
  rw [if_neg hd, if_pos hw]
  dsimp only
  split_ifs <;> rfl

theorem getD_set_self (e : List ℚ) (i : Nat) (a : ℚ) (h : i < e.length) :
    (e.set i a).getD i 0 = a := by
  simp [List.getD_eq_getElem?_getD, List.getElem?_set, h]

theorem getD_set_other (e : List ℚ) (i j : Nat) (a : ℚ) (h : j ≠ i) :
    (e.set i a).getD j 0 = e.getD j 0 := by
  simp [List.getD_eq_getElem?_getD, List.getElem?_set, Ne.symm h]

/-- C5, counterexample.  In `secondCycleSpent` the ledger still holds the withdrawal of 30
made on day 2 of the previous mission, and bucket 1 of the current mission holds 10.
Deleting that withdrawal leaves the buckets as they are; lowering bucket `day - 1` by the
amount, as `reverseExpense(t.day, t.amount)` would, gives another array. -/
theorem deleteTransaction_not_by_day_field :
    firstCycleWithdrawal ∈ secondCycleSpent.transactions ∧
    firstCycleWithdrawal.type = "withdraw" ∧
    (deleteTransaction secondCycleSpent firstCycleWithdrawal.id).2.currentMission.dailyExpenses
      = secondCycleSpent.currentMission.dailyExpenses ∧
    (deleteTransaction secondCycleSpent firstCycleWithdrawal.id).2.currentMission.dailyExpenses
      ≠ secondCycleSpent.currentMission.dailyExpenses.set (firstCycleWithdrawal.day - 1).toNat
          (max 0 (secondCycleSpent.currentMission.dailyExpenses.getD
            (firstCycleWithdrawal.day - 1).toNat 0 - firstCycleWithdrawal.amount)) := by
  have hdel :
      (deleteTransaction secondCycleSpent firstCycleWithdrawal.id).2.currentMission.dailyExpenses
        = [0, 10, 0, 0, 0, 0, 0, 0, 0, 0, 0, 0, 0, 0] := by
    simp [secondCycleSpent_eq, firstCycleWithdrawal, deleteTransaction, findIndex,
      reverseTransaction, daysDiff_eq]
    norm_num [withdraw_ne_deposit]
  refine ⟨?_, rfl, ?_, ?_⟩
  · simp [secondCycleSpent_eq]
  · rw [hdel]; simp [secondCycleSpent_eq]
  · rw [hdel]
    have h1 : (firstCycleWithdrawal.day - 1).toNat = 1 := rfl
    rw [h1]
    simp [secondCycleSpent_eq, firstCycleWithdrawal]
    norm_num

/-- C5, amended.  Let `t` be a withdraw record that is the first of the ledger with its
identifier, let the expense array have its 14 entries, and let
`i = floor((t.timestamp - startDate) / one day)`, computed from the record's timestamp and
the current mission's start date.  After `deleteTransaction(t.id)` the array still has 14
entries; if `0 <= i < 14`, entry `i` is `max(0, dailyExpenses[i] - t.amount)` and every other
entry is unchanged; if `i < 0`, the array is unchanged.  The stored `day` field is not
consulted. -/
theorem deleteTransaction_bucket_from_timestamp (s : Tracker) (pre post : List Transaction)
    (t : Transaction) (hl : s.transactions = pre ++ t :: post)
    (hpre : ∀ u ∈ pre, u.id ≠ t.id) (hw : t.type = "withdraw")
    (hlen : s.currentMission.dailyExpenses.length = 14) :
    (deleteTransaction s t.id).2.currentMission.dailyExpenses.length = 14 ∧
    (0 ≤ daysDiff t.timestamp s.currentMission.startDate →
      daysDiff t.timestamp s.currentMission.startDate < 14 →
      (deleteTransaction s t.id).2.currentMission.dailyExpenses.getD
          (daysDiff t.timestamp s.currentMission.startDate).toNat 0
        = max 0 (s.currentMission.dailyExpenses.getD
            (daysDiff t.timestamp s.currentMission.startDate).toNat 0 - t.amount) ∧
      ∀ j : Nat, j ≠ (daysDiff t.timestamp s.currentMission.startDate).toNat →
        (deleteTransaction s t.id).2.currentMission.dailyExpenses.getD j 0
          = s.currentMission.dailyExpenses.getD j 0) ∧
    (daysDiff t.timestamp s.currentMission.startDate < 0 →
      (deleteTransaction s t.id).2.currentMission.dailyExpenses
        = s.currentMission.dailyExpenses) := by
  rw [deleteTransaction_present s t.id pre post t hl hpre rfl]
  dsimp only
  rw [reverseTransaction_dailyExpenses_withdraw s t hw]
  refine ⟨?_, ?_, ?_⟩
  · split_ifs <;> simp [hlen]
  · intro h0 h14
    have hi : (daysDiff t.timestamp s.currentMission.startDate).toNat
        < s.currentMission.dailyExpenses.length := by
      rw [hlen]; omega
    rw [if_pos ⟨h0, h14⟩]
    exact ⟨getD_set_self _ _ _ hi, fun j hj => getD_set_other _ _ _ _ hj⟩
  · intro hneg
    have : ¬ (0 ≤ daysDiff t.timestamp s.currentMission.startDate ∧
        daysDiff t.timestamp s.currentMission.startDate < 14) := by omega
    rw [if_neg this]

/-- C5, instance of the amended statement: in the sample ledger the withdrawal of 30 made at
instant 2000 of a mission started at instant 0 falls in bucket 0, which goes from 30 to
`max(0, 30 - 30)`. -/
theorem deleteTransaction_bucket_from_timestamp_witness :
    (deleteTransaction sampleTracker (TxId.num 2000)).2.currentMission.dailyExpenses.getD 0 0
      = max 0 (30 - 30) := by
  have h := deleteTransaction_bucket_from_timestamp sampleTracker []
    [⟨TxId.num 1000, "deposit", 100, "Deposit", 1000, 1⟩]
    ⟨TxId.num 2000, "withdraw", 30, "Expense", 2000, 1⟩ rfl (by simp) rfl rfl
  have hi : daysDiff 2000 sampleTracker.currentMission.startDate = 0 := by
    simp [daysDiff_eq, sampleTracker]
  have h0 := (h.2.1 (by simp [hi]) (by simp [hi])).1
  simp only [hi] at h0
  simpa [sampleTracker] using h0

/-! ### The mission day -/

theorem daysDiff_floor (now startDate : Int) :
    daysDiff now startDate * msPerDay ≤ now - startDate ∧
    now - startDate < (daysDiff now startDate + 1) * msPerDay := by
  rw [daysDiff_eq]
  unfold msPerDay
  omega

/-- C7, counterexample.  For a mission whose start date is the instant 86400000 and a clock
that reads one millisecond less, `getCurrentDay` returns 0, which is outside `1..14` and is
not the clamped value 1. -/
theorem getCurrentDay_below_one :
    (freshTracker 0 86400000).currentMission.startDate = 86400000 ∧
    getCurrentDay (freshTracker 0 86400000) 86399999 = 0 ∧
    max 1 (min (daysDiff 86399999 (freshTracker 0 86400000).currentMission.startDate + 1) 14)
      = 1 := by
  simp [getCurrentDay, daysDiff_eq, freshTracker, createNewMission, todayDate_eq]

/-- C7, amended.  `getCurrentDay` returns `min(floor((now - startDate) / one day) + 1, 14)`:
it is at most 14, it is elapsed whole days plus one when that is at most 14, and 14 when that
is above 14.  For `now >= startDate` this is `clamp(floor(...) + 1, 1, 14)` and lies in
`1..14`.  For `now < startDate` there is no lower clamp: the result is elapsed whole days plus
one, a value `<= 0`. -/
theorem getCurrentDay_upper_clamp (s : Tracker) (now : Int) :
    getCurrentDay s now ≤ 14 ∧
    (daysDiff now s.currentMission.startDate + 1 ≤ 14 →
      getCurrentDay s now = daysDiff now s.currentMission.startDate + 1) ∧
    (14 < daysDiff now s.currentMission.startDate + 1 → getCurrentDay s now = 14) ∧
    (s.currentMission.startDate ≤ now →
      1 ≤ getCurrentDay s now ∧
      getCurrentDay s now
        = max 1 (min (daysDiff now s.currentMission.startDate + 1) 14)) ∧
    (now < s.currentMission.startDate →
      getCurrentDay s now = daysDiff now s.currentMission.startDate + 1 ∧
      getCurrentDay s now ≤ 0) := by
  unfold getCurrentDay
  rw [daysDiff_eq]
  refine ⟨?_, ?_, ?_, ?_, ?_⟩
  · omega
  · omega
  · omega
  · intro h
    omega
  · intro h
    omega

/-- C7, instance of the amended statement: three days and five milliseconds into a mission
started at instant 0 the day is 4. -/
theorem getCurrentDay_upper_clamp_witness :
    getCurrentDay (freshTracker 0 0) 259200005 = 3 + 1 ∧
    1 ≤ getCurrentDay (freshTracker 0 0) 259200005 :=
  have hd : daysDiff 259200005 (freshTracker 0 0).currentMission.startDate = 3 := by
    simp [daysDiff_eq, freshTracker, createNewMission, todayDate_eq]
  have hs : (freshTracker 0 0).currentMission.startDate ≤ 259200005 := by
    simp [freshTracker, createNewMission, todayDate_eq]
  have h := getCurrentDay_upper_clamp (freshTracker 0 0) 259200005
  ⟨hd ▸ h.2.1 (by rw [hd]; decide), (h.2.2.2.1 hs).1⟩

/-- C8. For a fixed start date `getCurrentDay` is non-decreasing in `now`, never exceeds 14,
and is 14 for every `now` with at least 13 elapsed whole days (that is, from
`startDate + 13 days` on). -/
theorem getCurrentDay_monotone (s : Tracker) (now1 now2 : Int) :
    (now1 ≤ now2 → getCurrentDay s now1 ≤ getCurrentDay s now2) ∧
    getCurrentDay s now1 ≤ 14 ∧
    (13 ≤ daysDiff now1 s.currentMission.startDate → getCurrentDay s now1 = 14) ∧
    (s.currentMission.startDate + 13 * msPerDay ≤ now1 → getCurrentDay s now1 = 14) := by
  unfold getCurrentDay msPerDay
  rw [daysDiff_eq, daysDiff_eq]
  refine ⟨?_, ?_, ?_, ?_⟩
  · intro h
    omega
  · omega
  · intro h
    omega
  · intro h
    omega

/-- C8, instance: in a mission started at instant 0 the day at instant 5000 is at most the
day one day later, and 13 days in the day is 14. -/
theorem getCurrentDay_monotone_witness :
    getCurrentDay (freshTracker 0 0) 5000 ≤ getCurrentDay (freshTracker 0 0) 86405000 ∧
    getCurrentDay (freshTracker 0 0) 1123200000 = 14 :=
  ⟨(getCurrentDay_monotone (freshTracker 0 0) 5000 86405000).1 (by decide),
    (getCurrentDay_monotone (freshTracker 0 0) 1123200000 0).2.2.2
      (by simp [freshTracker, createNewMission, todayDate_eq, msPerDay])⟩

/-! ### Loading and rolling over the mission -/

theorem todayDate_spec (now : Int) :
    todayDate now ≤ now ∧ now < todayDate now + msPerDay ∧ msPerDay ∣ todayDate now := by
  rw [todayDate_eq]
  unfold msPerDay
  refine ⟨?_, ?_, ?_⟩
  · omega
  · omega
  · exact ⟨now / 86400000, by ring⟩

theorem daysDiff_todayDate (now : Int) : daysDiff now (todayDate now) = 0 := by
  rw [daysDiff_eq, todayDate_eq]
  omega

/-- C9. `loadMissionData` returns the persisted record unchanged if and only if a record is
stored and `floor((now - startDate) / one day) < 14`.  In every other case (nothing stored,
or 14 or more elapsed whole days) it returns the fresh mission: `startDate` is today's date
(the midnight that begins the UTC day containing `now`), `currentDay` is 1, `dailyTargets`
and `dailyExpenses` are 14 zeros, `totalTarget` is 0. -/
theorem loadMissionData_contract (stored : Option Mission) (now : Int) :
    ((∃ m, stored = some m ∧ loadMissionData stored now = m) ↔
      (∃ m, stored = some m ∧ daysDiff now m.startDate < 14)) ∧
    (¬ (∃ m, stored = some m ∧ daysDiff now m.startDate < 14) →
      loadMissionData stored now =
        { startDate := todayDate now
          currentDay := 1
          dailyTargets := [0, 0, 0, 0, 0, 0, 0, 0, 0, 0, 0, 0, 0, 0]
          dailyExpenses := [0, 0, 0, 0, 0, 0, 0, 0, 0, 0, 0, 0, 0, 0]
          totalTarget := 0 }) ∧
    (todayDate now ≤ now ∧ now < todayDate now + msPerDay ∧ msPerDay ∣ todayDate now) := by
  refine ⟨?_, ?_, todayDate_spec now⟩
  · constructor
    · rintro ⟨m, rfl, hm⟩
      refine ⟨m, rfl, ?_⟩
      by_contra hge
      have hfresh : createNewMission now = m := by
        simpa [loadMissionData, hge] using hm
      have h0 := daysDiff_todayDate now
      have hs : m.startDate = todayDate now := by rw [← hfresh]; rfl
      rw [hs, h0] at hge
      exact hge (by decide)
    · rintro ⟨m, rfl, hm⟩
      exact ⟨m, rfl, by simp [loadMissionData, hm]⟩
  · intro h
    cases stored with
    | none => simp [loadMissionData, createNewMission, List.replicate]
    | some m =>
      have hm : ¬ daysDiff now m.startDate < 14 := fun hlt => h ⟨m, rfl, hlt⟩
      simp [loadMissionData, hm, createNewMission, List.replicate]

/-- C9, instance: the sample mission (started at instant 0) is returned unchanged five days
in, and replaced by a fresh mission dated instant 1209600000 fourteen days in. -/
theorem loadMissionData_contract_witness :
    (∃ m, some sampleTracker.currentMission = some m ∧
      loadMissionData (some sampleTracker.currentMission) 432000000 = m) ∧
    loadMissionData (some sampleTracker.currentMission) 1209600000 =
      { startDate := todayDate 1209600000
        currentDay := 1
        dailyTargets := [0, 0, 0, 0, 0, 0, 0, 0, 0, 0, 0, 0, 0, 0]
        dailyExpenses := [0, 0, 0, 0, 0, 0, 0, 0, 0, 0, 0, 0, 0, 0]
        totalTarget := 0 } :=
  ⟨(loadMissionData_contract (some sampleTracker.currentMission) 432000000).1.mpr
      ⟨sampleTracker.currentMission, rfl, by simp [daysDiff_eq, sampleTracker]⟩,
    (loadMissionData_contract (some sampleTracker.currentMission) 1209600000).2.1 (by
      rintro ⟨m, hm, hlt⟩
      cases hm
      simp [daysDiff_eq, sampleTracker] at hlt)⟩

theorem checkForNewDay_currentMission (s : Tracker) (now : Int) :
    (checkForNewDay s now).currentMission =
      { s.currentMission with currentDay := getCurrentDay s now } := by
  have hle : ¬ getCurrentDay s now > 14 := by
    unfold getCurrentDay
    omega
  unfold checkForNewDay
  dsimp only
  rw [if_neg hle]
  split_ifs with h
  · rfl
  · have h2 : getCurrentDay s now = s.currentMission.currentDay := not_not.mp h
    rw [h2]

/-- C10, failing input.  The sample tracker (mission started at instant 0, bucket 0 holding
30, targets 40) runs until 15 whole days have elapsed (instant 1296000000).
`checkForNewDay` only stores day 14: the mission keeps its start date, which is not today,
its expenses and its targets. -/
theorem checkForNewDay_keeps_expired_mission :
    daysDiff 1296000000 sampleTracker.currentMission.startDate = 15 ∧
    (checkForNewDay sampleTracker 1296000000).currentMission.currentDay = 14 ∧
    (checkForNewDay sampleTracker 1296000000).currentMission.startDate = 0 ∧
    todayDate 1296000000 = 1296000000 ∧
    (checkForNewDay sampleTracker 1296000000).currentMission.dailyExpenses
      = [30, 0, 0, 0, 0, 0, 0, 0, 0, 0, 0, 0, 0, 0] ∧
    (checkForNewDay sampleTracker 1296000000).currentMission.dailyTargets
      = List.replicate 14 40 := by
  rw [checkForNewDay_currentMission]
  simp [getCurrentDay, daysDiff_eq, todayDate_eq, sampleTracker]

/-! ### The expense buckets inside the mission window -/

theorem withdrawnOnDay_cons (t : Transaction) (l : List Transaction) (d : Nat) :
    withdrawnOnDay (t :: l) d =
      (if t.type = "withdraw" ∧ t.day = (d : Int) + 1 then t.amount else 0)
        + withdrawnOnDay l d := by
  unfold withdrawnOnDay
  by_cases h : t.type = "withdraw" ∧ t.day = (d : Int) + 1
  · simp [List.filter_cons, h]
  · rw [if_neg h]
    simp only [List.filter_cons, h, decide_False, Bool.false_eq_true, if_false, zero_add]

theorem withdrawnOnDay_append (l₁ l₂ : List Transaction) (d : Nat) :
    withdrawnOnDay (l₁ ++ l₂) d = withdrawnOnDay l₁ d + withdrawnOnDay l₂ d := by
  unfold withdrawnOnDay
  simp [List.filter_append]

theorem withdrawnOnDay_nonneg (l : List Transaction) (d : Nat)
    (h : ∀ t ∈ l, t.type = "withdraw" → 0 < t.amount) : 0 ≤ withdrawnOnDay l d := by
  induction l with
  | nil => simp [withdrawnOnDay]
  | cons t l ih =>
    rw [withdrawnOnDay_cons]
    have hl := ih (fun u hu => h u (List.mem_cons_of_mem t hu))
    by_cases hc : t.type = "withdraw" ∧ t.day = (d : Int) + 1
    · rw [if_pos hc]
      have := h t (List.mem_cons_self t l) hc.1
      linarith
    · rw [if_neg hc]
      linarith

theorem addTransaction_withdraw_currentMission (s : Tracker) (amount : ℚ)
    (description : String) (now : Int) (rnd : ℚ)
    (h0 : 0 ≤ daysDiff now s.currentMission.startDate)
    (h14 : daysDiff now s.currentMission.startDate < 14) :
    (addTransaction s "withdraw" amount description now rnd).2.currentMission =
      { s.currentMission with
          dailyExpenses := s.currentMission.dailyExpenses.set
            (daysDiff now s.currentMission.startDate).toNat
            (s.currentMission.dailyExpenses.getD
              (daysDiff now s.currentMission.startDate).toNat 0 + amount) } := by
  have hday : getCurrentDay s now - 1 = daysDiff now s.currentMission.startDate := by
    unfold getCurrentDay
    omega
  unfold addTransaction
  rw [if_neg withdraw_ne_deposit, if_pos rfl]
  dsimp only
  have hg : getCurrentDay
      { balance := s.balance - amount, dailyTarget := s.dailyTarget,
        transactions :=
          { id := TxId.num ((now : ℚ) + rnd), type := "withdraw", amount := amount,
            description := description, timestamp := now,
            day := getCurrentDay s now } :: s.transactions,
        currentMission := s.currentMission } now = getCurrentDay s now := rfl
  rw [hg, hday, if_pos ⟨h0, h14⟩]

theorem reverseTransaction_currentMission_other (s : Tracker) (t : Transaction)
    (hw : ¬ t.type = "withdraw") :
    (reverseTransaction s t).currentMission = s.currentMission := by
  unfold reverseTransaction
  rw [if_neg hw]
  split_ifs <;> rfl

theorem reverseTransaction_startDate (s : Tracker) (t : Transaction) :
    (reverseTransaction s t).currentMission.startDate = s.currentMission.startDate := by
  unfold reverseTransaction
  dsimp only
  split_ifs <;> rfl

theorem getD_replicate_zero (n d : Nat) : (List.replicate n (0 : ℚ)).getD d 0 = 0 := by
  rw [List.getD_eq_getElem?_getD, List.getElem?_replicate]
  split <;> rfl

theorem freshTracker_bucketsMatch (balance : ℚ) (now : Int) :
    BucketsMatch (todayDate now) (freshTracker balance now) := by
  refine ⟨rfl, by simp [freshTracker, createNewMission], ?_, ?_⟩
  · intro t ht
    simp [freshTracker] at ht
  · intro d _
    show (List.replicate 14 (0 : ℚ)).getD d 0 = withdrawnOnDay [] d
    rw [getD_replicate_zero]
    rfl

theorem handleWithdraw_bucketsMatch (startDate : Int) (s : Tracker) (amount : ℚ)
    (description : Option String) (now : Int) (rnd : ℚ)
    (hs : BucketsMatch startDate s)
    (h0 : 0 ≤ daysDiff now startDate) (h14 : daysDiff now startDate < 14) :
    BucketsMatch startDate (handleWithdraw s amount description now rnd).2 := by
  obtain ⟨hstart, hlen, hrec, hsum⟩ := hs
  unfold handleWithdraw
  dsimp only
  by_cases hle : amount ≤ 0
  · rw [if_pos hle]
    exact ⟨hstart, hlen, hrec, hsum⟩
  · rw [if_neg hle]
    by_cases hb : amount > s.balance
    · rw [if_pos hb]
      exact ⟨hstart, hlen, hrec, hsum⟩
    · rw [if_neg hb]
      dsimp only
      have hpos : 0 < amount := lt_of_not_ge hle
      have h0s : 0 ≤ daysDiff now s.currentMission.startDate := by rw [hstart]; exact h0
      have h14s : daysDiff now s.currentMission.startDate < 14 := by rw [hstart]; exact h14
      have hday : getCurrentDay s now = daysDiff now startDate + 1 := by
        unfold getCurrentDay
        rw [hstart]
        omega
      have hi : (daysDiff now startDate).toNat < 14 := by omega
      refine ⟨?_, ?_, ?_, ?_⟩
      · rw [addTransaction_withdraw_currentMission s amount _ now rnd h0s h14s]
        exact hstart
      · rw [addTransaction_withdraw_currentMission s amount _ now rnd h0s h14s]
        simp [hlen]
      · intro t ht hw
        rw [addTransaction_transactions, addTransaction_fst] at ht
        rcases List.mem_cons.mp ht with rfl | ht
        · exact ⟨hpos, h0, h14, hday⟩
        · exact hrec t ht hw
      · intro d hd
        rw [addTransaction_withdraw_currentMission s amount _ now rnd h0s h14s,
          addTransaction_transactions, addTransaction_fst, withdrawnOnDay_cons]
        dsimp only
        rw [hstart, hday]
        by_cases hdi : d = (daysDiff now startDate).toNat
        · have hc : daysDiff now startDate + 1 = (d : Int) + 1 := by omega
          rw [if_pos ⟨rfl, hc⟩, ← hdi, getD_set_self _ _ _ (by rw [hlen]; exact hd), hsum d hd]
          ring
        · have hc : ¬ ("withdraw" = "withdraw" ∧ daysDiff now startDate + 1 = (d : Int) + 1) := by
            rintro ⟨_, h⟩
            omega
          rw [if_neg hc, getD_set_other _ _ _ _ hdi, hsum d hd]
          ring

theorem deleteTransaction_bucketsMatch (startDate : Int) (s : Tracker) (transactionId : TxId)
    (hs : BucketsMatch startDate s) :
    BucketsMatch startDate (deleteTransaction s transactionId).2 := by
  obtain ⟨hstart, hlen, hrec, hsum⟩ := hs
  rcases first_with_id s.transactions transactionId with hno | ⟨pre, t, post, hl, hpre, ht⟩
  · rw [deleteTransaction_absent s transactionId hno]
    exact ⟨hstart, hlen, hrec, hsum⟩
  · rw [deleteTransaction_present s transactionId pre post t hl hpre ht]
    dsimp only
    have hrest : ∀ u ∈ pre ++ post, u.type = "withdraw" →
        0 < u.amount ∧ 0 ≤ daysDiff u.timestamp startDate ∧
          daysDiff u.timestamp startDate < 14 ∧
          u.day = daysDiff u.timestamp startDate + 1 := by
      intro u hu hw
      apply hrec u _ hw
      rw [hl]
      rcases List.mem_append.mp hu with h | h
      · exact List.mem_append_left _ h
      · exact List.mem_append_right _ (List.mem_cons_of_mem _ h)
    have hsplit : ∀ d : Nat, withdrawnOnDay s.transactions d =
        (if t.type = "withdraw" ∧ t.day = (d : Int) + 1 then t.amount else 0)
          + withdrawnOnDay (pre ++ post) d := by
      intro d
      rw [hl, withdrawnOnDay_append, withdrawnOnDay_cons, withdrawnOnDay_append]
      ring
    refine ⟨by rw [reverseTransaction_startDate]; exact hstart, ?_, hrest, ?_⟩
    · by_cases hw : t.type = "withdraw"
      · rw [reverseTransaction_dailyExpenses_withdraw s t hw]
        split_ifs <;> simp [hlen]
      · rw [reverseTransaction_currentMission_other s t hw]
        exact hlen
    · intro d hd
      by_cases hw : t.type = "withdraw"
      · obtain ⟨hpos, h0, h14, hday⟩ := hrec t (by rw [hl]; simp) hw
        rw [reverseTransaction_dailyExpenses_withdraw s t hw, hstart, if_pos ⟨h0, h14⟩]
        have hnn : 0 ≤ withdrawnOnDay (pre ++ post) d :=
          withdrawnOnDay_nonneg _ d (fun u hu huw => (hrest u hu huw).1)
        by_cases hdi : d = (daysDiff t.timestamp startDate).toNat
        · have hc : t.day = (d : Int) + 1 := by omega
          rw [← hdi, getD_set_self _ _ _ (by rw [hlen]; exact hd), hsum d hd, hsplit d,
            if_pos ⟨hw, hc⟩]
          rw [add_sub_cancel_left]
          exact max_eq_right hnn
        · have hc : ¬ (t.type = "withdraw" ∧ t.day = (d : Int) + 1) := by
            rintro ⟨_, h⟩
            omega
          rw [getD_set_other _ _ _ _ hdi, hsum d hd, hsplit d, if_neg hc, zero_add]
      · have hc : ¬ (t.type = "withdraw" ∧ t.day = (d : Int) + 1) := fun h => hw h.1
        rw [reverseTransaction_currentMission_other s t hw, hsum d hd, hsplit d, if_neg hc,
          zero_add]

/-- The expense invariant inside the mission window.  Starting from a fresh mission and an
empty ledger, after every finite sequence of `handleWithdraw` calls made while between 0 and
13 whole days have elapsed since the start date, and of `deleteTransaction` calls made at any
time, every bucket `d` in `0..13` holds the sum of the amounts of the withdraw records still
in the list whose `day` field is `d + 1`. -/
theorem dailyExpenses_invariant_in_window (balance : ℚ) (start : Int)
    (calls : List LedgerCall)
    (hwin : ∀ c ∈ calls, LedgerCall.inWindow (todayDate start) c) (d : Nat) (hd : d < 14) :
    (calls.foldl LedgerCall.run (freshTracker balance start)).currentMission.dailyExpenses.getD
        d 0
      = withdrawnOnDay (calls.foldl LedgerCall.run (freshTracker balance start)).transactions
          d := by
  have key : ∀ (cs : List LedgerCall) (s : Tracker),
      (∀ c ∈ cs, LedgerCall.inWindow (todayDate start) c) →
      BucketsMatch (todayDate start) s →
      BucketsMatch (todayDate start) (cs.foldl LedgerCall.run s) := by
    intro cs
    induction cs with
    | nil => intro s _ hs; exact hs
    | cons c cs ih =>
      intro s hc hs
      show BucketsMatch (todayDate start) (cs.foldl LedgerCall.run (LedgerCall.run s c))
      apply ih _ (fun c2 h2 => hc c2 (List.mem_cons_of_mem c h2))
      have hcw := hc c (List.mem_cons_self c cs)
      cases c with
      | withdraw amount description now rnd =>
        exact handleWithdraw_bucketsMatch _ s amount description now rnd hs hcw.1 hcw.2
      | delete transactionId => exact deleteTransaction_bucketsMatch _ s transactionId hs
  exact (key calls _ hwin (freshTracker_bucketsMatch balance start)).2.2.2 d hd

/-! ### Setting the daily target -/

theorem fillTargets_length (target : ℚ) (i : Int) (l : List ℚ) :
    (fillTargets target i l).length = l.length := by
  generalize h : (14 - i).toNat = n
  induction n generalizing i l with
  | zero => rw [fillTargets, if_neg (by omega)]
  | succ n ih =>
    rw [fillTargets, if_pos (by omega), ih (i + 1) _ (by omega)]
    split_ifs <;> simp

theorem fillTargets_getD (target : ℚ) (i : Int) (l : List ℚ) (hi : 0 ≤ i)
    (hlen : l.length = 14) (j : Nat) :
    (fillTargets target i l).getD j 0 =
      if i ≤ (j : Int) ∧ j < 14 then target else l.getD j 0 := by
  generalize h : (14 - i).toNat = n
  induction n generalizing i l with
  | zero =>
    rw [fillTargets, if_neg (by omega), if_neg (by omega)]
  | succ n ih =>
    rw [fillTargets, if_pos (by omega), if_pos hi,
      ih (i + 1) _ (by omega) (by simp [hlen]) (by omega)]
    by_cases hj : j = i.toNat
    · have h1 : ¬ (i + 1 ≤ (j : Int) ∧ j < 14) := by omega
      have h2 : i ≤ (j : Int) ∧ j < 14 := by omega
      rw [if_neg h1, if_pos h2, hj, getD_set_self _ _ _ (by omega)]
    · rw [getD_set_other _ _ _ _ hj]
      by_cases hc : i ≤ (j : Int) ∧ j < 14
      · rw [if_pos hc, if_pos (by omega)]
      · rw [if_neg hc, if_neg (by omega)]

/-- C11. With the current mission day `k = getCurrentDay()` in `1..14`, a 14-entry target
array and `value > 0`, `handleTargetUpdate` does not throw, sets the scalar `dailyTarget` to
`value`, sets `dailyTargets[i] = value` for every `i` with `k - 1 <= i <= 13`, leaves
`dailyTargets[i]` unchanged for every `i < k - 1`, and leaves `dailyExpenses`, the mission's
`startDate`, `balance` and `transactions` unchanged.  For `value <= 0` it throws and the
whole state is what it was. -/
theorem handleTargetUpdate_contract (s : Tracker) (value : ℚ) (now : Int) :
    (0 < value → 1 ≤ getCurrentDay s now → s.currentMission.dailyTargets.length = 14 →
      (handleTargetUpdate s value now).1 = Except.ok () ∧
      (handleTargetUpdate s value now).2.dailyTarget = value ∧
      (∀ i : Nat, getCurrentDay s now - 1 ≤ (i : Int) → i ≤ 13 →
        (handleTargetUpdate s value now).2.currentMission.dailyTargets.getD i 0 = value) ∧
      (∀ i : Nat, (i : Int) < getCurrentDay s now - 1 →
        (handleTargetUpdate s value now).2.currentMission.dailyTargets.getD i 0
          = s.currentMission.dailyTargets.getD i 0) ∧
      (handleTargetUpdate s value now).2.currentMission.dailyTargets.length = 14 ∧
      (handleTargetUpdate s value now).2.currentMission.dailyExpenses
        = s.currentMission.dailyExpenses ∧
      (handleTargetUpdate s value now).2.currentMission.startDate
        = s.currentMission.startDate ∧
      (handleTargetUpdate s value now).2.balance = s.balance ∧
      (handleTargetUpdate s value now).2.transactions = s.transactions) ∧
    (value ≤ 0 →
      (handleTargetUpdate s value now).1 = Except.error "Target must be greater than 0" ∧
      (handleTargetUpdate s value now).2 = s) := by
  constructor
  · intro hpos hk hlen
    have hnot : ¬ value ≤ 0 := not_le.mpr hpos
    have hg : getCurrentDay { s with dailyTarget := value } now = getCurrentDay s now := rfl
    unfold handleTargetUpdate
    rw [if_neg hnot]
    dsimp only
    rw [hg]
    refine ⟨rfl, rfl, ?_, ?_, ?_, rfl, rfl, rfl, rfl⟩
    · intro i h1 h2
      rw [fillTargets_getD value _ _ (by omega) hlen, if_pos ⟨h1, by omega⟩]
    · intro i h1
      rw [fillTargets_getD value _ _ (by omega) hlen, if_neg (by omega)]
    · rw [fillTargets_length, hlen]
  · intro hle
    unfold handleTargetUpdate
    rw [if_pos hle]
    exact ⟨rfl, rfl⟩

/-- C11, instance: on day 3 of a fresh mission (started at instant 0, targets all 0) setting
40 gives `dailyTargets[2] = 40` and `dailyTargets[13] = 40` and leaves `dailyTargets[1]` as it
was; setting 0 throws and changes nothing. -/
theorem handleTargetUpdate_contract_witness :
    (handleTargetUpdate (freshTracker 0 0) 40 172800005).2.dailyTarget = 40 ∧
    (handleTargetUpdate (freshTracker 0 0) 40 172800005).2.currentMission.dailyTargets.getD 2 0
      = 40 ∧
    (handleTargetUpdate (freshTracker 0 0) 40 172800005).2.currentMission.dailyTargets.getD 13 0
      = 40 ∧
    (handleTargetUpdate (freshTracker 0 0) 40 172800005).2.currentMission.dailyTargets.getD 1 0
      = (freshTracker 0 0).currentMission.dailyTargets.getD 1 0 ∧
    (handleTargetUpdate (freshTracker 0 0) 0 172800005).2 = freshTracker 0 0 :=
  have hday : getCurrentDay (freshTracker 0 0) 172800005 = 3 := by
    simp [getCurrentDay, daysDiff_eq, freshTracker, createNewMission, todayDate_eq]
  have h := (handleTargetUpdate_contract (freshTracker 0 0) 40 172800005).1 (by norm_num)
    (by rw [hday]; decide) (by simp [freshTracker, createNewMission])
  ⟨h.2.1, h.2.2.1 2 (by rw [hday]; decide) (by decide),
    h.2.2.1 13 (by rw [hday]; decide) (by decide),
    h.2.2.2.1 1 (by rw [hday]; decide),
    ((handleTargetUpdate_contract (freshTracker 0 0) 0 172800005).2 (le_refl 0)).2⟩

/-! ### Deposits -/

theorem addTransaction_deposit_currentMission (s : Tracker) (amount : ℚ)
    (description : String) (now : Int) (rnd : ℚ) :
    (addTransaction s "deposit" amount description now rnd).2.currentMission
      = s.currentMission := by
  unfold addTransaction
  rw [if_pos rfl]

theorem addTransaction_dailyTarget (s : Tracker) (type : String) (amount : ℚ)
    (description : String) (now : Int) (rnd : ℚ) :
    (addTransaction s type amount description now rnd).2.dailyTarget = s.dailyTarget := by
  unfold addTransaction
  dsimp only
  split_ifs <;> rfl

/-- C14. For `amount > 0`, `handleDeposit` does not throw, the balance goes up by exactly
`amount`, the new list is one new record (type deposit, that amount, stamped with the instant
of the call and with `day` the current mission day) followed by the old list, and the mission
(so `dailyExpenses` and `dailyTargets`) and the scalar target are unchanged.  For
`amount <= 0` it throws and the whole state is what it was. -/
theorem handleDeposit_contract (s : Tracker) (amount : ℚ) (description : Option String)
    (now : Int) (rnd : ℚ) :
    (0 < amount →
      (handleDeposit s amount description now rnd).1 = Except.ok () ∧
      (handleDeposit s amount description now rnd).2.balance = s.balance + amount ∧
      (∃ t : Transaction,
        (handleDeposit s amount description now rnd).2.transactions = t :: s.transactions ∧
        t.type = "deposit" ∧ t.amount = amount ∧ t.timestamp = now ∧
        t.day = getCurrentDay s now) ∧
      (handleDeposit s amount description now rnd).2.currentMission = s.currentMission ∧
      (handleDeposit s amount description now rnd).2.dailyTarget = s.dailyTarget) ∧
    (amount ≤ 0 →
      (handleDeposit s amount description now rnd).1
        = Except.error "Amount must be greater than 0" ∧
      (handleDeposit s amount description now rnd).2 = s) := by
  constructor
  · intro hpos
    have hnot : ¬ amount ≤ 0 := not_le.mpr hpos
    unfold handleDeposit
    dsimp only
    rw [if_neg hnot]
    dsimp only
    refine ⟨rfl, ?_, ?_, addTransaction_deposit_currentMission _ _ _ _ _,
      addTransaction_dailyTarget _ _ _ _ _ _⟩
    · rw [addTransaction_balance, if_pos rfl]
    · refine ⟨_, addTransaction_transactions _ _ _ _ _ _, ?_⟩
      rw [addTransaction_fst]
      exact ⟨rfl, rfl, rfl, rfl⟩
  · intro hle
    unfold handleDeposit
    dsimp only
    rw [if_pos hle]
    exact ⟨rfl, rfl⟩

/-- C14, instance: on an empty fresh tracker `deposit(100)` gives balance `0 + 100`, and
`deposit(0)` throws and changes nothing. -/
theorem handleDeposit_contract_witness :
    (handleDeposit (freshTracker 0 0) 100 none 1000 (1 / 8)).2.balance = 0 + 100 ∧
    (handleDeposit (freshTracker 0 0) 100 none 1000 (1 / 8)).2.currentMission
      = (freshTracker 0 0).currentMission ∧
    (handleDeposit (freshTracker 0 0) 0 none 1000 (1 / 8)).2 = freshTracker 0 0 :=
  have h := (handleDeposit_contract (freshTracker 0 0) 100 none 1000 (1 / 8)).1 (by norm_num)
  ⟨h.2.1, h.2.2.2.1,
    ((handleDeposit_contract (freshTracker 0 0) 0 none 1000 (1 / 8)).2 (le_refl 0)).2⟩

/-! ### Today's expenses and the amount available today -/

theorem dayOneSpent_eq :
    dayOneSpent =
      ⟨70, 0, [⟨TxId.num (86400500 + 1 / 2), "withdraw", 30, "Expense", 86400500, 1⟩],
        ⟨86400000, 1, List.replicate 14 0, [30, 0, 0, 0, 0, 0, 0, 0, 0, 0, 0, 0, 0, 0], 0⟩⟩ := by
  simp [dayOneSpent, freshTracker, handleWithdraw, addTransaction, getCurrentDay,
    daysDiff_eq, createNewMission, todayDate_eq]
  norm_num [List.replicate]

/-- C15, counterexample.  The tracker `dayOneSpent` has its start date at instant 86400000
and 30 in bucket 0.  With the clock one millisecond before the start date the day index of
the specification is 1, so `dailyExpenses[currentDayIndex(now) - 1]` is 30, while
`getTodaysExpenses` returns 0. -/
theorem getTodaysExpenses_before_start :
    specCurrentDayIndex dayOneSpent 86399999 = 1 ∧
    dayOneSpent.currentMission.dailyExpenses.getD
      (specCurrentDayIndex dayOneSpent 86399999 - 1).toNat 0 = 30 ∧
    getTodaysExpenses dayOneSpent 86399999 = 0 := by
  have hidx : specCurrentDayIndex dayOneSpent 86399999 = 1 := by
    simp [specCurrentDayIndex, dayOneSpent_eq, daysDiff_eq]
  refine ⟨hidx, ?_, ?_⟩
  · rw [hidx]
    simp [dayOneSpent_eq]
  · simp [getTodaysExpenses, getCurrentDay, dayOneSpent_eq, daysDiff_eq]

/-- C15, amended.  With a 14-entry expense array: for `now >= startDate`,
`getTodaysExpenses` returns `dailyExpenses[currentDayIndex(now) - 1]`, an entry of the array;
for `now < startDate` it returns 0.  In every case the amount available today is
`max(0, dailyTarget - getTodaysExpenses())`, is never negative, and is 0 whenever today's
expenses are at least the daily target. -/
theorem getTodaysExpenses_contract (s : Tracker) (now : Int)
    (hlen : s.currentMission.dailyExpenses.length = 14) :
    (s.currentMission.startDate ≤ now →
      (specCurrentDayIndex s now - 1).toNat < s.currentMission.dailyExpenses.length ∧
      getTodaysExpenses s now
        = s.currentMission.dailyExpenses.getD (specCurrentDayIndex s now - 1).toNat 0) ∧
    (now < s.currentMission.startDate → getTodaysExpenses s now = 0) ∧
    availableToday s now = max 0 (s.dailyTarget - getTodaysExpenses s now) ∧
    0 ≤ availableToday s now ∧
    (s.dailyTarget ≤ getTodaysExpenses s now → availableToday s now = 0) := by
  refine ⟨?_, ?_, rfl, le_max_left _ _, ?_⟩
  · intro hge
    have hd : 0 ≤ daysDiff now s.currentMission.startDate := by
      rw [daysDiff_eq]
      omega
    have hspec : specCurrentDayIndex s now = getCurrentDay s now := by
      unfold specCurrentDayIndex getCurrentDay
      omega
    have hrange : getCurrentDay s now - 1 ≥ 0 ∧ getCurrentDay s now - 1 < 14 := by
      unfold getCurrentDay
      omega
    refine ⟨?_, ?_⟩
    · rw [hlen, hspec]
      omega
    · unfold getTodaysExpenses
      dsimp only
      rw [if_pos hrange, hspec]
  · intro hlt
    have hd : daysDiff now s.currentMission.startDate < 0 := by
      rw [daysDiff_eq]
      omega
    have hrange : ¬ (getCurrentDay s now - 1 ≥ 0 ∧ getCurrentDay s now - 1 < 14) := by
      unfold getCurrentDay
      omega
    unfold getTodaysExpenses
    dsimp only
    rw [if_neg hrange]
  · intro hle
    unfold availableToday
    exact max_eq_left (by linarith)

/-- C15, instance of the amended statement: half a second after the withdrawal of 30 on day
1 today's expenses are the entry of bucket `1 - 1`. -/
theorem getTodaysExpenses_contract_witness :
    getTodaysExpenses dayOneSpent 86401000
      = dayOneSpent.currentMission.dailyExpenses.getD
          (specCurrentDayIndex dayOneSpent 86401000 - 1).toNat 0 ∧
    0 ≤ availableToday dayOneSpent 86401000 :=
  have h := getTodaysExpenses_contract dayOneSpent 86401000 (by simp [dayOneSpent_eq])
  ⟨(h.1 (by simp [dayOneSpent_eq])).2, h.2.2.2.1⟩

/-! ### Deleting through the rendered controls -/

/-- C17. When every identifier in the ledger is a number, `deleteTransaction` called with any
string returns `false` and leaves the whole state unchanged: `===` never equates a number and
a string.  So a confirmed click on the delete control written by `renderHistory` or
`showTransactionContextMenu`, which passes the identifier as a quoted string to
`deleteTransactionConfirm`, shows the failure toast and removes nothing, whatever text the
identifier is rendered to. -/
theorem deleteTransaction_string_id (s : Tracker)
    (hnum : ∀ t ∈ s.transactions, ∃ n : ℚ, t.id = TxId.num n) :
    (∀ str : String, deleteTransaction s (TxId.str str) = (false, s)) ∧
    (∀ (render : TxId → String) (t : Transaction),
      clickDelete render s t true = (some "Failed to delete transaction!", s)) ∧
    (∀ (render : TxId → String) (t : Transaction) (confirmed : Bool),
      (clickDelete render s t confirmed).2 = s) := by
  have hdel : ∀ str : String, deleteTransaction s (TxId.str str) = (false, s) := by
    intro str
    apply deleteTransaction_absent
    intro t ht heq
    obtain ⟨n, hn⟩ := hnum t ht
    rw [hn] at heq
    exact TxId.noConfusion heq
  refine ⟨hdel, ?_, ?_⟩
  · intro render t
    simp [clickDelete, deleteTransactionConfirm, hdel]
  · intro render t confirmed
    cases confirmed <;> simp [clickDelete, deleteTransactionConfirm, hdel]

/-- C17, instance: in the sample ledger, whose identifiers are the numbers 2000 and 1000, the
string `2000` deletes nothing while the number 2000 does delete. -/
theorem deleteTransaction_string_id_witness :
    deleteTransaction sampleTracker (TxId.str "2000") = (false, sampleTracker) ∧
    (deleteTransaction sampleTracker (TxId.num 2000)).1 = true :=
  ⟨(deleteTransaction_string_id sampleTracker (by
      intro t ht
      simp [sampleTracker] at ht
      rcases ht with rfl | rfl
      · exact ⟨2000, rfl⟩
      · exact ⟨1000, rfl⟩)).1 "2000",
    by simp [deleteTransaction, findIndex, sampleTracker]⟩

/-! ### Expenses never go below zero -/

theorem set_nonneg (l : List ℚ) (i : Nat) (v : ℚ) (hv : 0 ≤ v) (hl : ∀ x ∈ l, 0 ≤ x) :
    ∀ x ∈ l.set i v, 0 ≤ x := by
  intro x hx
  rcases List.mem_or_eq_of_mem_set hx with h | h
  · exact hl x h
  · rw [h]; exact hv

theorem getD_nonneg (l : List ℚ) (i : Nat) (hl : ∀ x ∈ l, 0 ≤ x) : 0 ≤ l.getD i 0 := by
  rw [List.getD_eq_getElem?_getD]
  cases h : l[i]? with
  | none => simp
  | some x =>
    have hx : x ∈ l := List.getElem?_mem h
    simpa using hl x hx

theorem addTransaction_expenses_nonneg (s : Tracker) (type : String) (amount : ℚ)
    (description : String) (now : Int) (rnd : ℚ) (ha : 0 ≤ amount)
    (hs : ∀ x ∈ s.currentMission.dailyExpenses, 0 ≤ x) :
    ∀ x ∈ (addTransaction s type amount description now rnd).2.currentMission.dailyExpenses,
      0 ≤ x := by
  unfold addTransaction
  dsimp only
  split_ifs
  · exact hs
  · exact set_nonneg _ _ _ (add_nonneg (getD_nonneg _ _ hs) ha) hs
  · exact hs
  · exact hs

theorem reverseTransaction_expenses_nonneg (s : Tracker) (t : Transaction)
    (hs : ∀ x ∈ s.currentMission.dailyExpenses, 0 ≤ x) :
    ∀ x ∈ (reverseTransaction s t).currentMission.dailyExpenses, 0 ≤ x := by
  unfold reverseTransaction
  dsimp only
  split_ifs
  · exact hs
  · exact set_nonneg _ _ _ (le_max_left _ _) hs
  · exact hs
  · exact hs

theorem deleteTransaction_expenses_nonneg (s : Tracker) (transactionId : TxId)
    (hs : ∀ x ∈ s.currentMission.dailyExpenses, 0 ≤ x) :
    ∀ x ∈ (deleteTransaction s transactionId).2.currentMission.dailyExpenses, 0 ≤ x := by
  rcases first_with_id s.transactions transactionId with hno | ⟨pre, t, post, hl, hpre, ht⟩
  · rw [deleteTransaction_absent s transactionId hno]
    exact hs
  · rw [deleteTransaction_present s transactionId pre post t hl hpre ht]
    exact reverseTransaction_expenses_nonneg s t hs

theorem handlerCall_expenses_nonneg (s : Tracker) (c : HandlerCall)
    (hs : ∀ x ∈ s.currentMission.dailyExpenses, 0 ≤ x) :
    ∀ x ∈ (HandlerCall.run s c).currentMission.dailyExpenses, 0 ≤ x := by
  cases c with
  | deposit amount description now rnd =>
    show ∀ x ∈ (handleDeposit s amount description now rnd).2.currentMission.dailyExpenses,
      0 ≤ x
    unfold handleDeposit
    dsimp only
    split_ifs with h
    · exact hs
    · exact addTransaction_expenses_nonneg s _ amount _ now rnd (le_of_lt (not_le.mp h)) hs
  | withdraw amount description now rnd =>
    show ∀ x ∈ (handleWithdraw s amount description now rnd).2.currentMission.dailyExpenses,
      0 ≤ x
    unfold handleWithdraw
    dsimp only
    split_ifs with h h2
    · exact hs
    · exact hs
    · exact addTransaction_expenses_nonneg s _ amount _ now rnd (le_of_lt (not_le.mp h)) hs
  | target value now =>
    show ∀ x ∈ (handleTargetUpdate s value now).2.currentMission.dailyExpenses, 0 ≤ x
    unfold handleTargetUpdate
    split_ifs
    · exact hs
    · exact hs
  | delete transactionId => exact deleteTransaction_expenses_nonneg s transactionId hs

/-- Finite amounts keep the expenses non-negative.  Starting from a fresh mission (any
balance, target and ledger), after every finite sequence of `handleDeposit`, `handleWithdraw`,
`handleTargetUpdate` and `deleteTransaction` calls, made with any finite numbers at any
instants, every entry of `dailyExpenses` is `>= 0`. -/
theorem dailyExpenses_nonneg (balance dailyTarget : ℚ) (transactions : List Transaction)
    (start : Int) (calls : List HandlerCall) :
    ∀ x ∈ (calls.foldl HandlerCall.run
        ⟨balance, dailyTarget, transactions, createNewMission start⟩).currentMission.dailyExpenses,
      0 ≤ x := by
  have key : ∀ (cs : List HandlerCall) (s : Tracker),
      (∀ x ∈ s.currentMission.dailyExpenses, 0 ≤ x) →
      ∀ x ∈ (cs.foldl HandlerCall.run s).currentMission.dailyExpenses, 0 ≤ x := by
    intro cs
    induction cs with
    | nil => intro s hs; exact hs
    | cons c cs ih =>
      intro s hs
      exact ih (HandlerCall.run s c) (handlerCall_expenses_nonneg s c hs)
  apply key
  intro x hx
  have h0 : x = 0 := by
    simpa [createNewMission] using hx
  rw [h0]

/-- An instance of `dailyExpenses_nonneg`: after a deposit of 100, a withdrawal of 30 and a
target of 40 on the first day of a fresh mission, 30 is an entry of `dailyExpenses`, and it is
`>= 0`. -/
theorem dailyExpenses_nonneg_witness :
    (30 : ℚ) ∈ ([HandlerCall.deposit 100 none 1000 (1 / 8),
        HandlerCall.withdraw 30 none 5000 (1 / 2), HandlerCall.target 40 6000].foldl
        HandlerCall.run ⟨0, 0, [], createNewMission 0⟩).currentMission.dailyExpenses ∧
    (0 : ℚ) ≤ 30 :=
  have hmem : (30 : ℚ) ∈ ([HandlerCall.deposit 100 none 1000 (1 / 8),
      HandlerCall.withdraw 30 none 5000 (1 / 2), HandlerCall.target 40 6000].foldl
      HandlerCall.run ⟨0, 0, [], createNewMission 0⟩).currentMission.dailyExpenses := by
    simp [HandlerCall.run, handleDeposit, handleWithdraw, handleTargetUpdate, addTransaction,
      getCurrentDay, daysDiff_eq, createNewMission, todayDate_eq, withdraw_ne_deposit]
    norm_num [List.replicate]
  ⟨hmem, dailyExpenses_nonneg 0 0 [] 0 _ 30 hmem⟩

/-! ### Amounts that do not parse -/

theorem map_fin_set (l : List ℚ) (i : Nat) (v : ℚ) :
    (l.map JsNum.fin).set i (JsNum.fin v) = (l.set i v).map JsNum.fin :=
  List.map_set.symm

theorem getD_map_fin (l : List ℚ) (i : Nat) (h : i < l.length) :
    (l.map JsNum.fin).getD i JsNum.nan = JsNum.fin (l.getD i 0) := by
  simp [List.getD_eq_getElem?_getD, h]

theorem fillTargetsNum_refines (target : ℚ) (i : Int) (l : List ℚ) :
    fillTargetsNum (JsNum.fin target) i (l.map JsNum.fin)
      = (fillTargets target i l).map JsNum.fin := by
  generalize h : (14 - i).toNat = n
  induction n generalizing i l with
  | zero =>
    have hge : ¬ i < 14 := by omega
    rw [fillTargetsNum, if_neg hge, fillTargets, if_neg hge]
  | succ n ih =>
    have hlt : i < 14 := by omega
    rw [fillTargetsNum, if_pos hlt, fillTargets, if_pos hlt]
    by_cases h0 : 0 ≤ i
    · rw [if_pos h0, if_pos h0, map_fin_set, ih (i + 1) _ (by omega)]
    · rw [if_neg h0, if_neg h0, ih (i + 1) _ (by omega)]

theorem addTransactionNum_refines (s : Tracker) (type : String) (amount : ℚ)
    (description : String) (now : Int) (rnd : ℚ)
    (hlen : s.currentMission.dailyExpenses.length = 14) :
    addTransactionNum s.toNum type (JsNum.fin amount) description now rnd =
      ((addTransaction s type amount description now rnd).1.toNum,
        (addTransaction s type amount description now rnd).2.toNum) := by
  unfold addTransactionNum addTransaction
  dsimp only
  by_cases hd : type = "deposit"
  · rw [if_pos hd, if_pos hd]
    rfl
  · rw [if_neg hd, if_neg hd]
    by_cases hw : type = "withdraw"
    · rw [if_pos hw, if_pos hw]
      have hg : getCurrentDayNum
          { s.toNum with
            transactions :=
              { id := TxId.num ((now : ℚ) + rnd), type := type, amount := JsNum.fin amount,
                description := description, timestamp := now,
                day := getCurrentDayNum s.toNum now } :: s.toNum.transactions,
            balance := s.toNum.balance.sub (JsNum.fin amount) } now
          = getCurrentDay s now := rfl
      have hg2 : getCurrentDay
          { s with
            transactions :=
              { id := TxId.num ((now : ℚ) + rnd), type := type, amount := amount,
                description := description, timestamp := now,
                day := getCurrentDay s now } :: s.transactions,
            balance := s.balance - amount } now
          = getCurrentDay s now := rfl
      rw [hg, hg2]
      by_cases hr : getCurrentDay s now - 1 ≥ 0 ∧ getCurrentDay s now - 1 < 14
      · have hi : (getCurrentDay s now - 1).toNat < s.currentMission.dailyExpenses.length := by
          rw [hlen]; omega
        have hget := getD_map_fin s.currentMission.dailyExpenses _ hi
        have hset := map_fin_set s.currentMission.dailyExpenses (getCurrentDay s now - 1).toNat
          (s.currentMission.dailyExpenses.getD (getCurrentDay s now - 1).toNat 0 + amount)
        rw [if_pos hr, if_pos hr]
        simp only [Tracker.toNum, Mission.toNum, Transaction.toNum, List.map_cons, hget,
          JsNum.add, JsNum.sub, hset]
        rfl
      · rw [if_neg hr, if_neg hr]
        rfl
    · rw [if_neg hw, if_neg hw]
      rfl

theorem handleDepositNum_refines (s : Tracker) (amount : ℚ) (description : Option String)
    (now : Int) (rnd : ℚ) (hlen : s.currentMission.dailyExpenses.length = 14) :
    handleDepositNum s.toNum (JsNum.fin amount) description now rnd =
      ((handleDeposit s amount description now rnd).1,
        (handleDeposit s amount description now rnd).2.toNum) := by
  unfold handleDepositNum handleDeposit
  dsimp only
  by_cases h : amount ≤ 0
  · simp [JsNum.le, h]
  · simp [JsNum.le, h, addTransactionNum_refines s _ amount _ now rnd hlen]

theorem handleWithdrawNum_refines (s : Tracker) (amount : ℚ) (description : Option String)
    (now : Int) (rnd : ℚ) (hlen : s.currentMission.dailyExpenses.length = 14) :
    handleWithdrawNum s.toNum (JsNum.fin amount) description now rnd =
      ((handleWithdraw s amount description now rnd).1,
        (handleWithdraw s amount description now rnd).2.toNum) := by
  unfold handleWithdrawNum handleWithdraw
  dsimp only
  by_cases h : amount ≤ 0
  · simp [JsNum.le, h]
  · by_cases hb : amount > s.balance
    · have hgt : (JsNum.fin amount).gt s.toNum.balance = true := by
        simp [JsNum.gt, Tracker.toNum, hb]
      simp [JsNum.le, h, hb, hgt]
    · have hgt : (JsNum.fin amount).gt s.toNum.balance = false := by
        simp [JsNum.gt, Tracker.toNum, hb]
      have hb2 : ¬ s.balance < amount := hb
      simp [JsNum.le, h, hb2, hgt, addTransactionNum_refines s _ amount _ now rnd hlen]

theorem handleTargetUpdateNum_refines (s : Tracker) (target : ℚ) (now : Int) :
    handleTargetUpdateNum s.toNum (JsNum.fin target) now =
      ((handleTargetUpdate s target now).1, (handleTargetUpdate s target now).2.toNum) := by
  unfold handleTargetUpdateNum handleTargetUpdate
  by_cases h : target ≤ 0
  · simp [JsNum.le, h]
  · simp [JsNum.le, h, Tracker.toNum, Mission.toNum, getCurrentDayNum, getCurrentDay,
      fillTargetsNum_refines]

/-- C13, failing input.  When the amount field parses to `NaN`, none of the three handlers
throws: `handleDeposit` and `handleWithdraw` put a record with amount `NaN` in front of the
ledger and make the balance `NaN`, and `handleTargetUpdate` makes the daily target `NaN`. -/
theorem handlers_accept_nan (s : NumTracker) (description : Option String) (now : Int)
    (rnd : ℚ) :
    (handleDepositNum s JsNum.nan description now rnd).1 = Except.ok () ∧
    (handleDepositNum s JsNum.nan description now rnd).2.balance = JsNum.nan ∧
    (handleDepositNum s JsNum.nan description now rnd).2.transactions.length
      = s.transactions.length + 1 ∧
    (handleWithdrawNum s JsNum.nan description now rnd).1 = Except.ok () ∧
    (handleWithdrawNum s JsNum.nan description now rnd).2.balance = JsNum.nan ∧
    (handleWithdrawNum s JsNum.nan description now rnd).2.transactions.length
      = s.transactions.length + 1 ∧
    (handleTargetUpdateNum s JsNum.nan now).1 = Except.ok () ∧
    (handleTargetUpdateNum s JsNum.nan now).2.dailyTarget = JsNum.nan := by
  have hadd : ∀ b : JsNum, b.add JsNum.nan = JsNum.nan := by
    intro b; cases b <;> rfl
  have hsub : ∀ b : JsNum, b.sub JsNum.nan = JsNum.nan := by
    intro b; cases b <;> rfl
  have hle : JsNum.nan.le (JsNum.fin 0) = false := rfl
  have hgt : ∀ b : JsNum, JsNum.nan.gt b = false := by
    intro b; cases b <;> rfl
  have hdep : ∀ d : String,
      (addTransactionNum s "deposit" JsNum.nan d now rnd).2.balance = JsNum.nan ∧
      (addTransactionNum s "deposit" JsNum.nan d now rnd).2.transactions.length
        = s.transactions.length + 1 := by
    intro d
    simp [addTransactionNum, hadd]
  have hwd : ∀ d : String,
      (addTransactionNum s "withdraw" JsNum.nan d now rnd).2.balance = JsNum.nan ∧
      (addTransactionNum s "withdraw" JsNum.nan d now rnd).2.transactions.length
        = s.transactions.length + 1 := by
    intro d
    unfold addTransactionNum
    rw [if_neg withdraw_ne_deposit, if_pos rfl]
    dsimp only
    split_ifs <;> exact ⟨hsub _, by simp⟩
  refine ⟨?_, ?_, ?_, ?_, ?_, ?_, ?_, ?_⟩
  · simp [handleDepositNum, hle]
  · simp only [handleDepositNum, hle, Bool.false_eq_true, if_false]
    exact (hdep _).1
  · simp only [handleDepositNum, hle, Bool.false_eq_true, if_false]
    exact (hdep _).2
  · simp [handleWithdrawNum, hle, hgt]
  · simp only [handleWithdrawNum, hle, hgt, Bool.false_eq_true, if_false]
    exact (hwd _).1
  · simp only [handleWithdrawNum, hle, hgt, Bool.false_eq_true, if_false]
    exact (hwd _).2
  · simp [handleTargetUpdateNum, hle]
  · simp [handleTargetUpdateNum, hle]

/-! ### Import of a document -/

theorem importData_null (finish : RawTracker → Option String) (s : RawTracker) :
    importData finish s JsVal.null =
      (Except.error "Failed to import data: Cannot read properties of null", s) := rfl

theorem importData_of_ne_null (finish : RawTracker → Option String) (s : RawTracker)
    (data : JsVal) (h : data ≠ JsVal.null) :
    importData finish s data =
      if (!(data.get "balance").isUndefined && (data.get "transactions").truthy
          && (data.get "currentMission").truthy) = true then
        match finish (importedFields data) with
        | none => (Except.ok (), importedFields data)
        | some message =>
          (Except.error ("Failed to import data: " ++ message), importedFields data)
      else
        (Except.error "Failed to import data: Invalid file format", s) := by
  cases data with
  | null => exact absurd rfl h
  | undefined => rfl
  | bool b => rfl
  | num n => rfl
  | str v => rfl
  | arr items => rfl
  | obj fields => rfl

theorem get_null (key : String) : JsVal.get JsVal.null key = JsVal.undefined := rfl

/-- A document that passes the test of `importData` has its values assigned to the four
fields, whatever `autoSave` and `updateDisplay` do afterwards; the toast is the success toast
when they return and the failure toast with their message when they throw. -/
theorem importData_assigns (finish : RawTracker → Option String) (s : RawTracker)
    (data : JsVal)
    (hb : (data.get "balance").isUndefined = false)
    (ht : (data.get "transactions").truthy = true)
    (hm : (data.get "currentMission").truthy = true) :
    (importData finish s data).2 = importedFields data ∧
    (importData finish s data).1 =
      match finish (importedFields data) with
      | none => Except.ok ()
      | some message => Except.error ("Failed to import data: " ++ message) := by
  have hn : data ≠ JsVal.null := by
    rintro rfl
    simp [get_null, JsVal.isUndefined] at hb
  rw [importData_of_ne_null finish s data hn, if_pos (by simp [hb, ht, hm])]
  cases finish (importedFields data) with
  | none => exact ⟨rfl, rfl⟩
  | some message => exact ⟨rfl, rfl⟩

/-- A document other than `null` that fails the test of `importData`, in particular one
without `currentMission`, gets the invalid-format toast and leaves the four fields as they
were. -/
theorem importData_rejects (finish : RawTracker → Option String) (s : RawTracker)
    (data : JsVal) (hn : data ≠ JsVal.null)
    (hc : ¬ ((data.get "balance").isUndefined = false ∧
      (data.get "transactions").truthy = true ∧ (data.get "currentMission").truthy = true)) :
    importData finish s data
      = (Except.error "Failed to import data: Invalid file format", s) := by
  rw [importData_of_ne_null finish s data hn, if_neg]
  intro h
  apply hc
  simpa [and_assoc] using h

/-- C12, failing input.  The document `looseDocument` has a balance, but its `transactions`
is the string `none` and its `currentMission` is the number 1, so it contains neither a
transactions collection nor a currentMission record.  `importData` does not refuse it: it
assigns 5, 0, the string and the number to the four fields before `autoSave` and
`updateDisplay` run, so whatever these two calls do (whether they return or throw) the
fields of the tracker are replaced, and the toast is the success toast or the failure toast
with their message. -/
theorem importData_replaces_state_of_loose_document (finish : RawTracker → Option String) :
    ¬ specImportable looseDocument ∧
    (importData finish rawSample looseDocument).2 =
      { balance := JsVal.num 5, dailyTarget := JsVal.num 0,
        transactions := JsVal.str "none", currentMission := JsVal.num 1 } ∧
    (importData finish rawSample looseDocument).2.balance ≠ rawSample.balance ∧
    (importData finish rawSample looseDocument).2.transactions ≠ rawSample.transactions ∧
    (importData finish rawSample looseDocument).1 =
      match finish
        { balance := JsVal.num 5, dailyTarget := JsVal.num 0,
          transactions := JsVal.str "none", currentMission := JsVal.num 1 } with
      | none => Except.ok ()
      | some message => Except.error ("Failed to import data: " ++ message) := by
  have hfields : importedFields looseDocument =
      { balance := JsVal.num 5, dailyTarget := JsVal.num 0,
        transactions := JsVal.str "none", currentMission := JsVal.num 1 } := by
    simp [importedFields, looseDocument, JsVal.get, List.lookup, JsVal.truthy]
  have h := importData_assigns finish rawSample looseDocument
    (by simp [looseDocument, JsVal.get, List.lookup, JsVal.isUndefined])
    (by simp [looseDocument, JsVal.get, List.lookup, JsVal.truthy])
    (by simp [looseDocument, JsVal.get, List.lookup, JsVal.truthy])
  rw [hfields] at h
  refine ⟨?_, h.1, ?_, ?_, h.2⟩
  · rintro ⟨_, ⟨items, hi⟩, _⟩
    simp [looseDocument, JsVal.get, List.lookup] at hi
  · rw [h.1]
    simp [rawSample]
  · rw [h.1]
    simp [rawSample]

/-! ### An infinite amount -/

theorem infiniteDeposit_eq :
    infiniteDeposit =
      ⟨JsNum.posInf, JsNum.fin 0,
        [⟨TxId.num (1000 + 1 / 8), "deposit", JsNum.posInf, "Deposit", 1000, 1⟩],
        ⟨0, 1, List.replicate 14 (JsNum.fin 0), List.replicate 14 (JsNum.fin 0),
          JsNum.fin 0⟩⟩ := by
  simp [infiniteDeposit, freshTracker, Tracker.toNum, Mission.toNum, createNewMission,
    todayDate_eq, handleDepositNum, JsNum.le, addTransactionNum, getCurrentDayNum,
    daysDiff_eq, JsNum.add]

theorem infiniteWithdrawal_eq :
    infiniteWithdrawal =
      ⟨JsNum.nan, JsNum.fin 0,
        [⟨TxId.num (5000 + 1 / 2), "withdraw", JsNum.posInf, "Expense", 5000, 1⟩,
          ⟨TxId.num (1000 + 1 / 8), "deposit", JsNum.posInf, "Deposit", 1000, 1⟩],
        ⟨0, 1, List.replicate 14 (JsNum.fin 0),
          JsNum.posInf :: List.replicate 13 (JsNum.fin 0), JsNum.fin 0⟩⟩ := by
  simp [infiniteWithdrawal, infiniteDeposit_eq, handleWithdrawNum, JsNum.le, JsNum.gt,
    addTransactionNum, getCurrentDayNum, daysDiff_eq, JsNum.sub, JsNum.add,
    withdraw_ne_deposit, List.replicate]

theorem infiniteWithdrawalDeleted_eq :
    infiniteWithdrawalDeleted =
      ⟨JsNum.nan, JsNum.fin 0,
        [⟨TxId.num (1000 + 1 / 8), "deposit", JsNum.posInf, "Deposit", 1000, 1⟩],
        ⟨0, 1, List.replicate 14 (JsNum.fin 0),
          JsNum.nan :: List.replicate 13 (JsNum.fin 0), JsNum.fin 0⟩⟩ := by
  simp [infiniteWithdrawalDeleted, infiniteWithdrawal_eq, deleteTransactionNum, findIndex,
    reverseTransactionNum, daysDiff_eq, JsNum.sub, JsNum.add, JsNum.max,
    withdraw_ne_deposit, List.replicate]

/-- C16, failing input.  On a fresh empty tracker the amount field `1e309` parses to
`Infinity`, a number that passes both guards: `handleDeposit` makes the balance `Infinity`,
`handleWithdraw` (`Infinity > Infinity` is false) puts `Infinity` in bucket 0, and deleting
that withdrawal leaves `Math.max(0, Infinity - Infinity)`, which is `NaN`, in bucket 0; the
test `0 <= NaN` is false, so the entry is not `>= 0`. -/
theorem dailyExpenses_nan_after_infinite_withdrawal :
    (handleDepositNum (freshTracker 0 0).toNum JsNum.posInf none 1000 (1 / 8)).1
      = Except.ok () ∧
    (handleWithdrawNum infiniteDeposit JsNum.posInf none 5000 (1 / 2)).1 = Except.ok () ∧
    infiniteWithdrawal.currentMission.dailyExpenses.getD 0 JsNum.nan = JsNum.posInf ∧
    (deleteTransactionNum infiniteWithdrawal (TxId.num (5000 + 1 / 2))).1 = true ∧
    infiniteWithdrawalDeleted.currentMission.dailyExpenses.getD 0 JsNum.nan = JsNum.nan ∧
    (JsNum.fin 0).le
      (infiniteWithdrawalDeleted.currentMission.dailyExpenses.getD 0 JsNum.nan) = false := by
  refine ⟨?_, ?_, ?_, ?_, ?_, ?_⟩
  · simp [handleDepositNum, JsNum.le]
  · simp [infiniteDeposit_eq, handleWithdrawNum, JsNum.le, JsNum.gt]
  · simp [infiniteWithdrawal_eq]
  · simp [infiniteWithdrawal_eq, deleteTransactionNum, findIndex]
  · simp [infiniteWithdrawalDeleted_eq]
  · simp [infiniteWithdrawalDeleted_eq, JsNum.le]

/-! ### Deletion on numbers that may be `NaN` or infinite -/

theorem findIndex_map {α β : Type} (f : α → β) (p : β → Bool) (l : List α) :
    findIndex p (l.map f) = findIndex (fun x => p (f x)) l := by
  induction l with
  | nil => rfl
  | cons x xs ih => simp [findIndex, ih]

theorem eraseIdx_map_toNum (l : List Transaction) (i : Nat) :
    (l.map Transaction.toNum).eraseIdx i = (l.eraseIdx i).map Transaction.toNum := by
  induction l generalizing i with
  | nil => rfl
  | cons x xs ih =>
    cases i with
    | zero => rfl
    | succ i => simp [List.eraseIdx, ih]

theorem reverseTransactionNum_refines (s : Tracker) (t : Transaction)
    (hlen : s.currentMission.dailyExpenses.length = 14) :
    reverseTransactionNum s.toNum t.toNum = (reverseTransaction s t).toNum := by
  unfold reverseTransactionNum reverseTransaction
  dsimp only
  have htype : t.toNum.type = t.type := rfl
  have hts : t.toNum.timestamp = t.timestamp := rfl
  have hstart : s.toNum.currentMission.startDate = s.currentMission.startDate := rfl
  rw [htype, hts, hstart]
  by_cases hd : t.type = "deposit"
  · rw [if_pos hd, if_pos hd]
    rfl
  · rw [if_neg hd, if_neg hd]
    by_cases hw : t.type = "withdraw"
    · rw [if_pos hw, if_pos hw]
      by_cases hr : daysDiff t.timestamp s.currentMission.startDate ≥ 0 ∧
          daysDiff t.timestamp s.currentMission.startDate < 14
      · have hi : (daysDiff t.timestamp s.currentMission.startDate).toNat
            < s.currentMission.dailyExpenses.length := by
          rw [hlen]; omega
        have hget := getD_map_fin s.currentMission.dailyExpenses _ hi
        have hset := map_fin_set s.currentMission.dailyExpenses
          (daysDiff t.timestamp s.currentMission.startDate).toNat
          (max 0 (s.currentMission.dailyExpenses.getD
            (daysDiff t.timestamp s.currentMission.startDate).toNat 0 - t.amount))
        rw [if_pos hr, if_pos hr]
        simp only [Tracker.toNum, Mission.toNum, Transaction.toNum, hget, JsNum.sub,
          JsNum.add, JsNum.max, hset]
      · rw [if_neg hr, if_neg hr]
        rfl
    · rw [if_neg hw, if_neg hw]

theorem deleteTransactionNum_refines (s : Tracker) (transactionId : TxId)
    (hlen : s.currentMission.dailyExpenses.length = 14) :
    deleteTransactionNum s.toNum transactionId =
      ((deleteTransaction s transactionId).1, (deleteTransaction s transactionId).2.toNum) := by
  have hfind : findIndex (fun t : NumTransaction => decide (t.id = transactionId))
      s.toNum.transactions
      = findIndex (fun t : Transaction => decide (t.id = transactionId)) s.transactions :=
    findIndex_map Transaction.toNum _ s.transactions
  have hget : ∀ i, s.toNum.transactions.get? i
      = (s.transactions.get? i).map Transaction.toNum := by
    intro i
    simp [Tracker.toNum]
  unfold deleteTransactionNum deleteTransaction
  rw [hfind]
  cases findIndex (fun t : Transaction => decide (t.id = transactionId)) s.transactions with
  | none => rfl
  | some i =>
    dsimp only
    rw [hget i]
    cases hg : s.transactions.get? i with
    | none => rfl
    | some t =>
      dsimp only [Option.map]
      rw [reverseTransactionNum_refines s t hlen]
      simp only [Tracker.toNum, eraseIdx_map_toNum]

end FinancialTracker
